import Mathlib

/-!
Verification development for the TCP connection-lifecycle and timer core in
`src/lwip/src/core/tcp.c` of the aprinter repository (an lwIP fork).

The C code is shallowly embedded: PCBs become a Lean structure, the four
intrusive singly-linked PCB lists become lists of PCB identifiers (a pointer
is modelled by a `Nat` identifier; the `next` field of a PCB is the list
structure itself), machine integers become `Nat`/`Int` with explicit
wraparound where the C relies on it, and external collaborators
(`tcp_output`, `tcp_rst`, `tcp_send_fin`, `tcp_enqueue_flags`,
`tcp_zero_window_probe`, `tcp_rexmit_rto`, `tcp_keepalive`, `memp_*`,
routing) are parameters supplied through an environment record, following
the out-of-scope list of the specification.
-/

set_option linter.unusedVariables false

/-! ## Machine arithmetic helpers -/

/-- Wraparound unsigned 32-bit subtraction, the C expression
`(u32_t)(a - b)`. -/
def u32_sub (a b : Nat) : Nat := (a + (2 ^ 32 - b % 2 ^ 32)) % 2 ^ 32

/-- Wraparound increment of a `u32_t` counter (`++tcp_ticks`). -/
def u32_add1 (a : Nat) : Nat := (a + 1) % 2 ^ 32

/-- Wraparound increment of a `u8_t` counter (`++tcp_timer_ctr`). -/
def u8_add1 (a : Nat) : Nat := (a + 1) % 256

/-! ## Configuration constants

Modelled from the spec: the numeric configuration constants live in lwIP
headers (`lwipopts.h`, `opt.h`, `tcp_impl.h`, `err.h`) that are not part of
this repository snapshot; only `tcp.c` is.  The values below are the stock
lwIP defaults, matching the spec's tunable-constants table (500 ms slow
interval, 250 ms fast interval, port range 49152-65535, backoff tables,
MSS clamp 536).  Error codes only need to be pairwise distinct. -/

def TCP_MSS : Nat := 536
def TCP_WND : Nat := 4 * TCP_MSS
def TCP_SND_BUF : Nat := 2 * TCP_MSS
def TCP_SLOW_INTERVAL : Nat := 500
def TCP_MSL : Nat := 60000
def TCP_SYNMAXRTX : Nat := 6
def TCP_MAXRTX : Nat := 12
def TCP_FIN_WAIT_TIMEOUT : Nat := 20000
def TCP_SYN_RCVD_TIMEOUT : Nat := 20000
def TCP_PRIO_MAX : Nat := 127
def TCP_PRIO_NORMAL : Nat := 64
def TCP_TTL : Nat := 255
def TCP_KEEPIDLE_DEFAULT : Nat := 7200000
def TCP_KEEPINTVL_DEFAULT : Nat := 75000
def TCP_KEEPCNT_DEFAULT : Nat := 9

/-- With `LWIP_TCP_KEEPALIVE` disabled (the default configuration),
`TCP_KEEP_DUR(pcb)` is the constant `TCP_MAXIDLE`. -/
def TCP_MAXIDLE : Nat := TCP_KEEPCNT_DEFAULT * TCP_KEEPINTVL_DEFAULT

def TCP_WND_UPDATE_THRESHOLD : Nat := TCP_WND / 4
def TCP_LOCAL_PORT_RANGE_START : Nat := 49152
def TCP_LOCAL_PORT_RANGE_END : Nat := 65535

/-- As initial send MSS, the code uses TCP_MSS but limits it to 536. -/
def INITIAL_MSS : Nat := if TCP_MSS > 536 then 536 else TCP_MSS

/-- `TCPWND_MIN16` clamps a window to 16 bits. -/
def TCPWND_MIN16 (x : Nat) : Nat := min x 65535

/-- `TCP_WND_MAX(pcb)` in the default (no window scaling) configuration. -/
def TCP_WND_MAX_C : Nat := TCP_WND

/-- Error codes (`err_t`).  Numeric values follow lwIP's `err.h`; for the
theorems below only their pairwise distinctness matters. -/
abbrev Err := Int

def ERR_OK : Err := 0
def ERR_BUF : Err := -2
def ERR_RTE : Err := -4
def ERR_VAL : Err := -6
def ERR_USE : Err := -8
def ERR_CONN : Err := -11
def ERR_ABRT : Err := -13

/-- Exponential retransmission backoff table `tcp_backoff[13]`. -/
def tcp_backoff : List Nat := [1, 2, 3, 4, 5, 6, 7, 7, 7, 7, 7, 7, 7]

/-- Persist-probe cadence table `tcp_persist_backoff[7]`. -/
def tcp_persist_backoff : List Nat := [3, 6, 12, 24, 48, 96, 120]

/-! ## TCP state enumeration -/

/-- The `enum tcp_state` of the code. -/
inductive TcpState
  | CLOSED
  | LISTEN_CLOS
  | LISTEN
  | SYN_SENT
  | SYN_RCVD
  | ESTABLISHED
  | FIN_WAIT_1
  | FIN_WAIT_2
  | CLOSE_WAIT
  | CLOSING
  | LAST_ACK
  | TIME_WAIT
deriving DecidableEq, Repr

open TcpState

/-- `tcp_state_is_active`: whether PCBs in this state belong on
`tcp_active_pcbs`. -/
def tcp_state_is_active : TcpState → Bool
  | SYN_SENT | SYN_RCVD | ESTABLISHED | FIN_WAIT_1 | FIN_WAIT_2
  | CLOSE_WAIT | CLOSING | LAST_ACK => true
  | _ => false

/-! ## Intrusive-list helpers

A PCB list is a `List Nat` of PCB identifiers; a live pointer `p->next`
corresponds to the element following `p` in the list holding it. -/

/-- The successor of (the first occurrence of) `p` in list `l`: the value of
the intrusive `p->next` field when `p` is on `l`. -/
def succAfter : List Nat → Nat → Option Nat
  | [], _ => none
  | x :: rest, p => if x = p then rest.head? else succAfter rest p

/-- The scanning loop of `tcp_iter_will_remove`'s prev-fixup: walk from the
list head, remembering the last node seen before `p` (`prev_prev`). -/
def predScan : List Nat → Nat → Option Nat → Option Nat
  | [], _, acc => acc
  | x :: rest, p, acc => if x = p then acc else predScan rest p (some x)

/-- Predecessor of (the first occurrence of) `p` in `l`, `none` when `p` is
the head; computed exactly like the fixup loop in `tcp_iter_will_remove`. -/
def predBefore (l : List Nat) (p : Nat) : Option Nat := predScan l p none

/-- Unlinking via the `prev` fast path of `tcp_pcb_free`
(`prev->next = pcb->next`): drop the element that follows the first
occurrence of `prev`. -/
def tcp_splice_after : List Nat → Nat → List Nat
  | [], _ => []
  | x :: rest, prev => if x = prev then x :: rest.tail else x :: tcp_splice_after rest prev

/-- `tcp_rmv`: unlink a PCB from a list by scanning from the head; this is
removal of the first occurrence. -/
def tcp_rmv {α : Type} [DecidableEq α] (l : List α) (i : α) : List α := l.erase i

/-! ## The safe iterator (`struct tcp_iter`) -/

/-- Iterator state `{current, prev, next_is_current}`; `current`/`prev` hold
PCB identifiers. -/
structure TcpIter where
  current : Option Nat
  prev : Option Nat
  next_is_current : Bool
deriving DecidableEq, Repr

/-- `tcp_iter_start`. -/
def tcp_iter_start (pcblist : List Nat) : TcpIter :=
  { current := pcblist.head?, prev := none, next_is_current := true }

/-- `tcp_iter_next`.  In C the advance step reads `it->current->next`; here
that is the successor of `current` in the list `l` currently being scanned.
The C code asserts `current != NULL` before advancing; past the end of the
scan we return `none` without moving. -/
def tcp_iter_next (it : TcpIter) (l : List Nat) : TcpIter × Option Nat :=
  if it.next_is_current then
    ({ it with next_is_current := false }, it.current)
  else
    match it.current with
    | none => (it, none)
    | some c =>
      let nc := succAfter l c
      ({ it with prev := some c, current := nc }, nc)

/-- `tcp_iter_will_remove`, called just before `pcb` is unlinked from `l`.
The first branch reads `it->current->next` (the successor of `pcb`, since
`pcb == it->current`); the second repairs `prev` by the head-scan. -/
def tcp_iter_will_remove (it : TcpIter) (pcb : Nat) (l : List Nat) : TcpIter :=
  match it.current with
  | none => it
  | some c =>
    if pcb = c then
      { it with current := succAfter l pcb, next_is_current := true }
    else if it.prev = some pcb then
      { it with prev := predBefore l pcb }
    else it

/-- `tcp_iter_will_prepend`, called just before `pcb` is prepended to `l`
(the C condition `pcblist != NULL && pcblist == it->current` compares the
current head of the list with the iterator's current PCB). -/
def tcp_iter_will_prepend (it : TcpIter) (pcb : Nat) (l : List Nat) : TcpIter :=
  if l ≠ [] ∧ l.head? = it.current then { it with prev := some pcb } else it

/-! ## Data model: addresses, PCBs, listeners, global state -/

/-- An IP address value.  `is_any` models `ip_addr_isany` (a `NULL` address
argument also counts as "any" in the C macros); `is_v6` is the address
family tag used by the `IP_*VER*` macros. -/
structure IpAddr where
  is_v6 : Bool := false
  is_any : Bool := false
  addr : Nat := 0
deriving DecidableEq, Repr

/-- `ip_addr_cmp`. -/
def ip_addr_cmp (a b : IpAddr) : Bool :=
  a.is_v6 = b.is_v6 && a.is_any = b.is_any && a.addr = b.addr

/-- A connection PCB (`struct tcp_pcb`).  The C `flags` bitset is modelled
as individual booleans (`TF_ACK_DELAY`, `TF_ACK_NOW`, `TF_NOUSER`,
`TF_BACKLOGPEND`, `TF_NAGLEMEMERR`) together with the socket options
`SOF_REUSEADDR` and `SOF_KEEPALIVE`.  The send queue is the list of segment
identifiers currently on `sndq`.  Fields irrelevant to every modelled
function (callback pointers, `polltmr` and friends) are omitted. -/
structure TcpPcb where
  state : TcpState := CLOSED
  prio : Nat := 0
  local_ip : IpAddr := {}
  remote_ip : IpAddr := {}
  local_port : Nat := 0
  remote_port : Nat := 0
  ack_delay : Bool := false
  ack_now : Bool := false
  nouser : Bool := false
  backlogpend : Bool := false
  naglememerr : Bool := false
  so_reuse : Bool := false
  so_keepalive : Bool := false
  listener : Option Nat := none
  tmr : Nat := 0
  last_timer : Nat := 0
  rtime : Int := -1
  rto : Nat := 0
  sa : Nat := 0
  sv : Nat := 0
  nrtx : Nat := 0
  persist_backoff : Nat := 0
  persist_cnt : Nat := 0
  keep_idle : Nat := 0
  keep_cnt_sent : Nat := 0
  sndq : List Nat := []
  sndq_last : Option Nat := none
  sndq_next : Option Nat := none
  snd_queuelen : Nat := 0
  snd_nxt : Nat := 0
  rcv_nxt : Nat := 0
  lastack : Nat := 0
  snd_lbb : Nat := 0
  snd_wl2 : Nat := 0
  snd_wnd : Nat := 0
  rcv_wnd : Nat := 0
  rcv_ann_wnd : Nat := 0
  rcv_ann_right_edge : Nat := 0
  cwnd : Nat := 0
  ssthresh : Nat := 0
  snd_buf : Nat := 0
  mss : Nat := 0
  ttl : Nat := 0
deriving DecidableEq, Repr

/-- A listener PCB (`struct tcp_pcb_listen`). -/
structure TcpPcbListen where
  state : TcpState := LISTEN_CLOS
  prio : Nat := 0
  local_ip : IpAddr := {}
  local_port : Nat := 0
  so_reuse : Bool := false
  backlog : Nat := 0
  accepts_pending : Nat := 0
  accept_any_ip_version : Bool := false
  initial_rcv_wnd : Nat := 0
  ttl : Nat := 0
deriving DecidableEq, Repr

/-- A reference to a `struct tcp_pcb_base`: either a connection PCB or a
listener PCB.  The bound list may hold both kinds. -/
inductive PcbRef
  | conn (i : Nat)
  | lis (i : Nat)
deriving DecidableEq, Repr

/-- The global state of the module: the PCB stores, the four lists
(`tcp_listen_pcbs`, `tcp_bound_pcbs`, `tcp_active_pcbs`, `tcp_tw_pcbs`),
the shared iterator `tcp_conn_iter`, the counters `tcp_ticks`,
`tcp_timer_ctr` and `tcp_timer`, the ephemeral-port cursor `tcp_port`, the
ISS seed of `tcp_next_iss` and the `tcp_input_pcb` reference. -/
structure TcpGlobal where
  pcbs : Nat → TcpPcb
  lpcbs : Nat → TcpPcbListen
  listenl : List Nat := []
  bound : List PcbRef := []
  active : List Nat := []
  tw : List Nat := []
  iter : TcpIter := tcp_iter_start []
  ticks : Nat := 0
  timer_ctr : Nat := 0
  timer : Nat := 0
  tcp_port : Nat := TCP_LOCAL_PORT_RANGE_START
  iss_seed : Nat := 6510
  input_pcb : Option Nat := none

/-- Point update of the connection-PCB store. -/
def TcpGlobal.setPcb (g : TcpGlobal) (i : Nat) (p : TcpPcb) : TcpGlobal :=
  { g with pcbs := fun j => if j = i then p else g.pcbs j }

/-- Point update of the listener store. -/
def TcpGlobal.setLpcb (g : TcpGlobal) (i : Nat) (lp : TcpPcbListen) : TcpGlobal :=
  { g with lpcbs := fun j => if j = i then lp else g.lpcbs j }

/-- Local port of a `tcp_pcb_base` reference. -/
def TcpGlobal.refPort (g : TcpGlobal) : PcbRef → Nat
  | .conn i => (g.pcbs i).local_port
  | .lis i => (g.lpcbs i).local_port

/-- Local IP of a `tcp_pcb_base` reference. -/
def TcpGlobal.refIp (g : TcpGlobal) : PcbRef → IpAddr
  | .conn i => (g.pcbs i).local_ip
  | .lis i => (g.lpcbs i).local_ip

/-- `SOF_REUSEADDR` of a `tcp_pcb_base` reference. -/
def TcpGlobal.refReuse (g : TcpGlobal) : PcbRef → Bool
  | .conn i => (g.pcbs i).so_reuse
  | .lis i => (g.lpcbs i).so_reuse

/-- State of a `tcp_pcb_base` reference. -/
def TcpGlobal.refState (g : TcpGlobal) : PcbRef → TcpState
  | .conn i => (g.pcbs i).state
  | .lis i => (g.lpcbs i).state

/-- All four lists in the order of the `tcp_pcb_lists` array
(`listen`, `bound`, `active`, `tw`), as base references. -/
def TcpGlobal.allRefs (g : TcpGlobal) : List PcbRef :=
  g.listenl.map .lis ++ g.bound ++ g.active.map .conn ++ g.tw.map .conn

/-- The multiset of local ports present on the four lists. -/
def TcpGlobal.allPorts (g : TcpGlobal) : List Nat :=
  g.allRefs.map g.refPort

/-- The environment of external collaborators (spec section 1's
out-of-scope list).  Result codes of fallible collaborators are provided
per PCB identifier; `tcp_enqueue_flags` may install segments on the send
queue of the PCB it is called on, modelled by the `enq_*` fields. -/
structure TcpEnv where
  send_fin : Nat → Err := fun _ => ERR_OK
  enqueue_flags : Nat → Err := fun _ => ERR_OK
  enq_sndq : List Nat := []
  enq_sndq_last : Option Nat := none
  enq_sndq_next : Option Nat := none
  zero_window_probe : Nat → Err := fun _ => ERR_OK
  keepalive : Nat → Err := fun _ => ERR_OK
  route : Option IpAddr := none

/-! ## Backlog tracking -/

/-- `tcp_backlog_delayed_internal`: increment the listener's
`accepts_pending` and set `TF_BACKLOGPEND` iff the PCB is not already
pending and has a listener. -/
def tcp_backlog_delayed_internal (g : TcpGlobal) (i : Nat) : TcpGlobal :=
  let p := g.pcbs i
  match p.listener with
  | none => g
  | some li =>
    if p.backlogpend then g
    else
      let lp := g.lpcbs li
      (g.setLpcb li { lp with accepts_pending := lp.accepts_pending + 1 }).setPcb i
        { p with backlogpend := true }

/-- `tcp_backlog_accepted_internal`: the symmetric decrement, iff pending
and the listener exists.  `accepts_pending` is a small unsigned counter in
C; the asserted invariant `accepts_pending != 0` on this path keeps the
decrement exact, so `Nat` subtraction under the guard is faithful. -/
def tcp_backlog_accepted_internal (g : TcpGlobal) (i : Nat) : TcpGlobal :=
  let p := g.pcbs i
  match p.listener with
  | none => g
  | some li =>
    if p.backlogpend then
      let lp := g.lpcbs li
      (g.setLpcb li { lp with accepts_pending := lp.accepts_pending - 1 }).setPcb i
        { p with backlogpend := false }
    else g

/-- Application-facing `tcp_backlog_delayed` (asserts the user reference
and delegates). -/
def tcp_backlog_delayed (g : TcpGlobal) (i : Nat) : TcpGlobal :=
  tcp_backlog_delayed_internal g i

/-- Application-facing `tcp_backlog_accepted`. -/
def tcp_backlog_accepted (g : TcpGlobal) (i : Nat) : TcpGlobal :=
  tcp_backlog_accepted_internal g i

/-- `tcp_backlog_set`. -/
def tcp_backlog_set (g : TcpGlobal) (li : Nat) (new_backlog : Nat) : TcpGlobal :=
  let lp := g.lpcbs li
  g.setLpcb li { lp with backlog := if new_backlog ≠ 0 then new_backlog else 1 }

/-! ## Purge, error reporting, free, move to TIME-WAIT -/

/-- `tcp_report_err`: report an error once, withdrawing the user reference;
the `errf` callback itself is external. -/
def tcp_report_err (g : TcpGlobal) (i : Nat) (err : Err) : TcpGlobal :=
  let p := g.pcbs i
  if p.nouser = false then g.setPcb i { p with nouser := true } else g

/-- `tcp_pcb_purge`: release a pending backlog slot, stop the
retransmission timer, free all segments of the send queue. -/
def tcp_pcb_purge (g : TcpGlobal) (i : Nat) : TcpGlobal :=
  let g := tcp_backlog_accepted_internal g i
  let p := g.pcbs i
  g.setPcb i { p with rtime := -1, sndq := [], sndq_last := none, sndq_next := none }

/-- `tcp_pcb_free`: the idempotent finalizer.  `prev` is the optional
known-predecessor fast path (`prev->next = pcb->next`); `tcp_rst` and
`tcp_output` are external.  `memp_free` releases the storage; identifiers
are never reused in the model, so the entry simply becomes unreachable
from every list. -/
def tcp_pcb_free (g : TcpGlobal) (i : Nat) (send_rst : Bool) (prev : Option Nat) : TcpGlobal :=
  let g := if g.input_pcb = some i then { g with input_pcb := none } else g
  let p := g.pcbs i
  if p.state = CLOSED then
    if p.local_port ≠ 0 then { g with bound := tcp_rmv g.bound (.conn i) } else g
  else if tcp_state_is_active p.state then
    let g := if p.ack_delay then g.setPcb i { p with ack_now := true } else g
    let g := { g with iter := tcp_iter_will_remove g.iter i g.active }
    let g :=
      match prev with
      | some pv => { g with active := tcp_splice_after g.active pv }
      | none => { g with active := tcp_rmv g.active i }
    tcp_pcb_purge g i
  else if p.state = TIME_WAIT then
    let g := { g with iter := tcp_iter_will_remove g.iter i g.tw }
    { g with tw := tcp_rmv g.tw i }
  else g

/-- `tcp_move_to_time_wait`: unlink from active (with iterator
notification), purge, set TIME_WAIT, prepend to tw (with iterator
notification). -/
def tcp_move_to_time_wait (g : TcpGlobal) (i : Nat) : TcpGlobal :=
  let g := { g with iter := tcp_iter_will_remove g.iter i g.active }
  let g := { g with active := tcp_rmv g.active i }
  let g := tcp_pcb_purge g i
  let g := g.setPcb i { g.pcbs i with state := TIME_WAIT }
  let g := { g with iter := tcp_iter_will_prepend g.iter i g.tw }
  { g with tw := i :: g.tw }

/-! ## Reclamation: the kill family -/

/-- The scanning loop of `tcp_kill_prio`: ceiling `mprio`, best age
`inactivity`, candidate `inactive`; selecting a PCB lowers the ceiling to
its priority. -/
def tcp_kill_prio_loop (g : TcpGlobal) :
    List Nat → Nat → Nat → Option Nat → Option Nat
  | [], _, _, inactive => inactive
  | i :: rest, mprio, inactivity, inactive =>
    let p := g.pcbs i
    if p.prio ≤ mprio ∧ u32_sub g.ticks p.tmr ≥ inactivity then
      tcp_kill_prio_loop g rest p.prio (u32_sub g.ticks p.tmr) (some i)
    else
      tcp_kill_prio_loop g rest mprio inactivity inactive

/-- The victim chosen by `tcp_kill_prio(prio)`. -/
def tcp_kill_prio_select (g : TcpGlobal) (prio : Nat) : Option Nat :=
  tcp_kill_prio_loop g g.active (min TCP_PRIO_MAX prio) 0 none

/-- `tcp_kill_prio`. -/
def tcp_kill_prio (g : TcpGlobal) (prio : Nat) : TcpGlobal :=
  match tcp_kill_prio_select g prio with
  | none => g
  | some inactive => tcp_pcb_free (tcp_report_err g inactive ERR_ABRT) inactive true none

/-- The scanning loop of `tcp_kill_state`. -/
def tcp_kill_state_loop (g : TcpGlobal) (st : TcpState) :
    List Nat → Nat → Option Nat → Option Nat
  | [], _, inactive => inactive
  | i :: rest, inactivity, inactive =>
    let p := g.pcbs i
    if p.state = st ∧ u32_sub g.ticks p.tmr ≥ inactivity then
      tcp_kill_state_loop g st rest (u32_sub g.ticks p.tmr) (some i)
    else
      tcp_kill_state_loop g st rest inactivity inactive

/-- `tcp_kill_state` (no RST, since no data is lost). -/
def tcp_kill_state (g : TcpGlobal) (st : TcpState) : TcpGlobal :=
  match tcp_kill_state_loop g st g.active 0 none with
  | none => g
  | some i => tcp_pcb_free (tcp_report_err g i ERR_ABRT) i false none

/-- The scanning loop of `tcp_kill_timewait`. -/
def tcp_kill_timewait_loop (g : TcpGlobal) :
    List Nat → Nat → Option Nat → Option Nat
  | [], _, inactive => inactive
  | i :: rest, inactivity, inactive =>
    let p := g.pcbs i
    if u32_sub g.ticks p.tmr ≥ inactivity then
      tcp_kill_timewait_loop g rest (u32_sub g.ticks p.tmr) (some i)
    else
      tcp_kill_timewait_loop g rest inactivity inactive

/-- `tcp_kill_timewait` (no error report: TIME-WAIT PCBs have no user). -/
def tcp_kill_timewait (g : TcpGlobal) : TcpGlobal :=
  match tcp_kill_timewait_loop g g.tw 0 none with
  | none => g
  | some i => tcp_pcb_free g i false none

/-! ## Ephemeral port allocator -/

/-- Cursor advance `if (tcp_port++ == TCP_LOCAL_PORT_RANGE_END) tcp_port =
TCP_LOCAL_PORT_RANGE_START`. -/
def advancePort (p : Nat) : Nat :=
  if p = TCP_LOCAL_PORT_RANGE_END then TCP_LOCAL_PORT_RANGE_START else p + 1

/-- The `again:` loop of `tcp_new_port`, returning the result and the final
cursor.  The collision counter `n` caps the search at a full cycle of the
16384-port range; `fuel` is a structural-recursion bound.  Called with
`fuel = 16384` and `n = 0`, the fuel branch is unreachable because every
recursive call increments `n` and recursion stops once `n + 1 > 16383`. -/
def tcp_new_port_loop (ports : List Nat) : Nat → Nat → Nat → Nat × Nat
  | cursor, _n, 0 => (0, cursor)
  | cursor, n, fuel + 1 =>
    let c := advancePort cursor
    if ports.contains c then
      if n + 1 > TCP_LOCAL_PORT_RANGE_END - TCP_LOCAL_PORT_RANGE_START then (0, c)
      else tcp_new_port_loop ports c (n + 1) fuel
    else (c, c)

/-- `tcp_new_port`: allocate a new local TCP port, 0 on failure.  The
static cursor `tcp_port` lives in the global state. -/
def tcp_new_port (g : TcpGlobal) : Nat × TcpGlobal :=
  let pr := tcp_new_port_loop g.allPorts g.tcp_port 0 16384
  (pr.1, { g with tcp_port := pr.2 })

/-! ## bind / listen / connect -/

/-- The port-in-use scan of `tcp_bind` for an explicit `port != 0`.  In the
modelled configuration `SO_REUSE` is disabled, so all four lists are
scanned and the mutual-`SOF_REUSEADDR` exemption is compiled out.
`pcbV6` is the binding PCB's address family (the scan compares
`IP_PCB_IPVER_EQ(pcb, cpcb)`). -/
def tcp_bind_conflict (g : TcpGlobal) (pcbV6 : Bool) (ipaddr : IpAddr) (port : Nat) : Bool :=
  g.allRefs.any fun r =>
    g.refPort r == port && (g.refIp r).is_v6 == pcbV6 &&
      ((g.refIp r).is_any || ipaddr.is_any || ip_addr_cmp (g.refIp r) ipaddr)

/-- The success tail of `tcp_bind`: copy the local IP unless the caller
passed a wildcard, set `local_port`, prepend to the bound list. -/
def tcp_bind_commit (g : TcpGlobal) (r : PcbRef) (ipaddr : IpAddr) (port : Nat) : TcpGlobal :=
  let g :=
    if ipaddr.is_any = false then
      match r with
      | .conn i => g.setPcb i { g.pcbs i with local_ip := ipaddr }
      | .lis i => g.setLpcb i { g.lpcbs i with local_ip := ipaddr }
    else g
  let g :=
    match r with
    | .conn i => g.setPcb i { g.pcbs i with local_port := port }
    | .lis i => g.setLpcb i { g.lpcbs i with local_port := port }
  { g with bound := r :: g.bound }

/-- `tcp_bind` on a `tcp_pcb_base` (connection or listener PCB).  A `NULL`
`ipaddr` argument behaves as a wildcard address and is modelled by
`is_any`. -/
def tcp_bind (g : TcpGlobal) (r : PcbRef) (ipaddr : IpAddr) (port : Nat) : Err × TcpGlobal :=
  if (g.refIp r).is_v6 ≠ ipaddr.is_v6 then (ERR_VAL, g)
  else if port = 0 then
    let pr := tcp_new_port g
    if pr.1 = 0 then (ERR_BUF, pr.2)
    else (ERR_OK, tcp_bind_commit pr.2 r ipaddr pr.1)
  else
    if tcp_bind_conflict g (g.refIp r).is_v6 ipaddr port then (ERR_USE, g)
    else (ERR_OK, tcp_bind_commit g r ipaddr port)

/-- `tcp_listen_with_backlog`.  `SO_REUSE` is disabled in the modelled
configuration, so the duplicate-listener check under `#if SO_REUSE` is
compiled out and the function always succeeds. -/
def tcp_listen_with_backlog (g : TcpGlobal) (li : Nat) (backlog : Nat) : Err × TcpGlobal :=
  let g := g.setLpcb li { g.lpcbs li with state := LISTEN, accept_any_ip_version := false }
  let g :=
    if (g.lpcbs li).local_port ≠ 0 then { g with bound := tcp_rmv g.bound (.lis li) } else g
  let g := g.setLpcb li { g.lpcbs li with accepts_pending := 0 }
  let g := tcp_backlog_set g li backlog
  let g := g.setLpcb li { g.lpcbs li with initial_rcv_wnd := TCPWND_MIN16 TCP_WND }
  (ERR_OK, { g with listenl := li :: g.listenl })

/-- What a `return` statement of `tcp_listen_dual_with_backlog` hands back:
the function is declared `err_t` but its `return NULL` / `return lpcb`
statements return pointers. -/
inductive CPtrRet
  | c_null
  | c_ptr (i : Nat)
deriving DecidableEq, Repr

/-- The numeric `err_t` value of such a pointer return: `NULL` is the value
0, which numerically equals `ERR_OK`; the value of a non-null pointer cast
to the 8-bit `err_t` is implementation-defined (`none`). -/
def cptr_as_err : CPtrRet → Option Err
  | .c_null => some 0
  | .c_ptr _ => none

/-- `tcp_listen_dual_with_backlog`: duplicate-port scan over the listen
list first, then the plain listen, then the dual-stack flag if the local
IP is wildcard. -/
def tcp_listen_dual_with_backlog (g : TcpGlobal) (li : Nat) (backlog : Nat) :
    CPtrRet × TcpGlobal :=
  if (g.lpcbs li).local_port ≠ 0 ∧
      (g.listenl.any fun l => (g.lpcbs l).local_port == (g.lpcbs li).local_port) then
    (.c_null, g)
  else
    let er := tcp_listen_with_backlog g li backlog
    let g :=
      if er.1 = ERR_OK ∧ (er.2.lpcbs li).local_ip.is_any then
        er.2.setLpcb li { er.2.lpcbs li with accept_any_ip_version := true }
      else er.2
    (.c_ptr li, g)

/-- `tcp_next_iss`: the static seed is incremented by the current
`tcp_ticks` on each call. -/
def tcp_next_iss (g : TcpGlobal) : Nat × TcpGlobal :=
  let iss := (g.iss_seed + g.ticks) % 2 ^ 32
  (iss, { g with iss_seed := iss })

/-- The tail of `tcp_connect` from the ISS initialization on: initialize
sequence and window variables, enqueue the SYN (external
`tcp_enqueue_flags`, which installs the SYN segment on the send queue on
success), and only on `ERR_OK` commit the transition: state `SYN_SENT`,
removal from bound (if previously bound), iterator prepend notification,
prepend to active, opportunistic `tcp_output`.  The modelled configuration
has `TCP_CALCULATE_EFF_SEND_MSS` disabled, so the initial MSS is
`INITIAL_MSS` without the routing-layer refinement. -/
def tcp_connect_rest (env : TcpEnv) (g : TcpGlobal) (i : Nat) (old_local_port : Nat) :
    Err × TcpGlobal :=
  let ig := tcp_next_iss g
  let iss := ig.1
  let g := ig.2
  let g := g.setPcb i
    { g.pcbs i with
      rcv_nxt := 0
      snd_nxt := iss
      lastack := u32_sub iss 1
      snd_lbb := u32_sub iss 1
      rcv_wnd := TCPWND_MIN16 TCP_WND
      rcv_ann_wnd := TCPWND_MIN16 TCP_WND
      rcv_ann_right_edge := 0
      snd_wnd := TCP_WND
      mss := INITIAL_MSS
      cwnd := 1
      ssthresh := TCP_WND }
  let ret := env.enqueue_flags i
  if ret = ERR_OK then
    let g := g.setPcb i
      { g.pcbs i with
        state := SYN_SENT
        sndq := env.enq_sndq
        sndq_last := env.enq_sndq_last
        sndq_next := env.enq_sndq_next }
    let g :=
      if old_local_port ≠ 0 then { g with bound := tcp_rmv g.bound (.conn i) } else g
    let g := { g with iter := tcp_iter_will_prepend g.iter i g.active }
    let g := { g with active := i :: g.active }
    (ret, g)
  else (ret, g)

/-- `tcp_connect`.  The caller passes a non-null remote address (the C
`ipaddr == NULL` branch returns `ERR_VAL`); `env.route` is the result of
`ip_route_get_local_ip`, `none` when there is no netif or no local
address.  In the modelled configuration `SO_REUSE` is disabled, so the
5-tuple uniqueness scan for rebinds is compiled out. -/
def tcp_connect (env : TcpEnv) (g : TcpGlobal) (i : Nat) (ipaddr : IpAddr) (port : Nat) :
    Err × TcpGlobal :=
  if (g.pcbs i).local_ip.is_v6 ≠ ipaddr.is_v6 then (ERR_VAL, g)
  else
    let g := g.setPcb i { g.pcbs i with remote_ip := ipaddr, remote_port := port }
    let routed : Option TcpGlobal :=
      if (g.pcbs i).local_ip.is_any then
        match env.route with
        | none => none
        | some lip => some (g.setPcb i { g.pcbs i with local_ip := lip })
      else some g
    match routed with
    | none => (ERR_RTE, g)
    | some g =>
      let old_local_port := (g.pcbs i).local_port
      if old_local_port = 0 then
        let pr := tcp_new_port g
        if pr.1 = 0 then (ERR_BUF, pr.2)
        else
          tcp_connect_rest env (pr.2.setPcb i { pr.2.pcbs i with local_port := pr.1 }) i
            old_local_port
      else
        tcp_connect_rest env g i old_local_port

/-! ## Timer engine -/

/-- The per-PCB body of `tcp_fasttmr`'s scan (after the `last_timer`
de-dup): for a PCB with `TF_ACK_DELAY`, `tcp_ack_now` sets `TF_ACK_NOW`,
`tcp_output` transmits (external), then both `TF_ACK_DELAY` and
`TF_ACK_NOW` are cleared.  The returned list records the PCB identifiers
for which the delayed-ACK path ran (the observable transmissions). -/
def tcp_fasttmr_loop (env : TcpEnv) (ctr : Nat) :
    List Nat → TcpGlobal → TcpGlobal × List Nat
  | [], g => (g, [])
  | i :: rest, g =>
    let p := g.pcbs i
    if p.last_timer ≠ ctr then
      let p := { p with last_timer := ctr }
      if p.ack_delay then
        let p := { p with ack_now := true }
        let p := { p with ack_delay := false, ack_now := false }
        let pr := tcp_fasttmr_loop env ctr rest (g.setPcb i p)
        (pr.1, i :: pr.2)
      else
        tcp_fasttmr_loop env ctr rest (g.setPcb i p)
    else
      tcp_fasttmr_loop env ctr rest g

/-- `tcp_fasttmr` (sends delayed ACKs), with the list of PCBs for which an
ACK was transmitted. -/
def tcp_fasttmr (env : TcpEnv) (g : TcpGlobal) : TcpGlobal × List Nat :=
  let ctr := u8_add1 g.timer_ctr
  tcp_fasttmr_loop env ctr g.active { g with timer_ctr := ctr }

/-- `tcp_txnow`: `tcp_output` for every active PCB with `TF_NAGLEMEMERR`;
the state is untouched, the outputs are the observable effect. -/
def tcp_txnow (g : TcpGlobal) : TcpGlobal × List Nat :=
  (g, g.active.filter fun i => (g.pcbs i).naglememerr)

/-- The zero-window-probe (persist timer) block of `tcp_slowtmr`;
`tcp_zero_window_probe` is external. -/
def tcp_slowtmr_persist (env : TcpEnv) (i : Nat) (p : TcpPcb) : TcpPcb × Bool :=
  let backoff_cnt := tcp_persist_backoff.getD (p.persist_backoff - 1) 0
  let p :=
    if p.persist_cnt < backoff_cnt then { p with persist_cnt := p.persist_cnt + 1 } else p
  if p.persist_cnt ≥ backoff_cnt then
    if env.zero_window_probe i = ERR_OK then
      ({ p with
          persist_cnt := 0
          persist_backoff :=
            if p.persist_backoff < 7 then p.persist_backoff + 1 else p.persist_backoff },
        false)
    else (p, false)
  else (p, false)

/-- The retransmission-timer block of `tcp_slowtmr` (increment `rtime`,
on expiry back off `rto`, reset the timer and shrink the congestion
window; `tcp_rexmit_rto` itself is external). -/
def tcp_slowtmr_rexmit (p : TcpPcb) : TcpPcb × Bool :=
  let p := if p.rtime ≥ 0 then { p with rtime := p.rtime + 1 } else p
  if p.sndq ≠ [] ∧ p.rtime ≥ (p.rto : Int) then
    let p :=
      if p.state ≠ SYN_SENT then
        { p with rto := (p.sa / 8 + p.sv) <<< tcp_backoff.getD p.nrtx 0 }
      else p
    let p := { p with rtime := 0 }
    let eff_wnd := min p.cwnd p.snd_wnd
    let p :=
      { p with ssthresh := if eff_wnd / 2 < 2 * p.mss then 2 * p.mss else eff_wnd / 2 }
    ({ p with cwnd := p.mss }, false)
  else (p, false)

/-- Max-retransmission abort checks, then the zero-window-probe or the
retransmission block, of `tcp_slowtmr`. -/
def tcp_slowtmr_rtx (env : TcpEnv) (i : Nat) (p : TcpPcb) : TcpPcb × Bool :=
  if p.state = SYN_SENT ∧ p.nrtx = TCP_SYNMAXRTX then (p, true)
  else if p.nrtx = TCP_MAXRTX then (p, true)
  else if p.persist_backoff > 0 then tcp_slowtmr_persist env i p
  else tcp_slowtmr_rexmit p

/-- The keep-alive block of `tcp_slowtmr` (modelled configuration:
`LWIP_TCP_KEEPALIVE` off, so the idle ceiling is `TCP_MAXIDLE` and the
probe interval is `TCP_KEEPINTVL_DEFAULT`): returns the PCB and the
`pcb_remove` / `pcb_reset` contributions. -/
def tcp_slowtmr_keepalive (env : TcpEnv) (ticks : Nat) (i : Nat) (p : TcpPcb) :
    TcpPcb × Bool × Bool :=
  if p.so_keepalive ∧ (p.state = ESTABLISHED ∨ p.state = CLOSE_WAIT) then
    if u32_sub ticks p.tmr > (p.keep_idle + TCP_MAXIDLE) / TCP_SLOW_INTERVAL then
      (p, true, true)
    else if u32_sub ticks p.tmr >
        (p.keep_idle + p.keep_cnt_sent * TCP_KEEPINTVL_DEFAULT) / TCP_SLOW_INTERVAL then
      (if env.keepalive i = ERR_OK then { p with keep_cnt_sent := p.keep_cnt_sent + 1 } else p,
        false, false)
    else (p, false, false)
  else (p, false, false)

/-- The per-PCB decision cascade of `tcp_slowtmr` (lines between the
`last_timer` de-dup and the removal commit): returns the mutated PCB, the
`pcb_remove` flag and the `pcb_reset` flag. -/
def tcp_slowtmr_pcb_update (env : TcpEnv) (ticks : Nat) (i : Nat) (p : TcpPcb) :
    TcpPcb × Bool × Bool :=
  let first := tcp_slowtmr_rtx env i p
  let p := first.1
  let rm := first.2
  let rm := rm ∨
    (p.state = FIN_WAIT_2 ∧ p.nouser ∧
      u32_sub ticks p.tmr > TCP_FIN_WAIT_TIMEOUT / TCP_SLOW_INTERVAL)
  let ka := tcp_slowtmr_keepalive env ticks i p
  let p := ka.1
  let rm := rm ∨ ka.2.1
  let rst := ka.2.2
  let rm := rm ∨
    (p.state = SYN_RCVD ∧ u32_sub ticks p.tmr > TCP_SYN_RCVD_TIMEOUT / TCP_SLOW_INTERVAL)
  let rm := rm ∨
    (p.state = LAST_ACK ∧ u32_sub ticks p.tmr > 2 * TCP_MSL / TCP_SLOW_INTERVAL)
  (p, rm, rst)

/-- One active-list iteration step of `tcp_slowtmr`: the `last_timer`
de-dup, the decision cascade, and the removal commit (`TF_ACK_DELAY`
cleared, `tcp_report_err(ERR_ABRT)`, `tcp_pcb_free` with the iterator's
`prev` fast path) or the opportunistic `tcp_output` (external). -/
def tcp_slowtmr_pcb (env : TcpEnv) (g : TcpGlobal) (i : Nat) : TcpGlobal :=
  let p := g.pcbs i
  if p.last_timer = g.timer_ctr then g
  else
    let p := { p with last_timer := g.timer_ctr }
    let u := tcp_slowtmr_pcb_update env g.ticks i p
    if u.2.1 then
      let g := g.setPcb i { u.1 with ack_delay := false }
      let g := tcp_report_err g i ERR_ABRT
      tcp_pcb_free g i u.2.2 g.iter.prev
    else
      g.setPcb i u.1

/-- The active-list `while (pcb = tcp_iter_next(...))` loop of
`tcp_slowtmr`.  `fuel` is a structural bound on the number of
`tcp_iter_next` calls; the iterator delivers each list element at most
once, so `initial list length + 1` calls always reach the terminating
`none`. -/
def tcp_slowtmr_active_loop (env : TcpEnv) : Nat → TcpGlobal → TcpGlobal
  | 0, g => g
  | fuel + 1, g =>
    let pr := tcp_iter_next g.iter g.active
    let g := { g with iter := pr.1 }
    match pr.2 with
    | none => g
    | some i => tcp_slowtmr_active_loop env fuel (tcp_slowtmr_pcb env g i)

/-- One tw-list iteration step of `tcp_slowtmr`: free the PCB once it has
stayed in TIME-WAIT longer than `2 * TCP_MSL`. -/
def tcp_slowtmr_tw_pcb (g : TcpGlobal) (i : Nat) : TcpGlobal :=
  if u32_sub g.ticks (g.pcbs i).tmr > 2 * TCP_MSL / TCP_SLOW_INTERVAL then
    tcp_pcb_free g i false g.iter.prev
  else g

/-- The tw-list loop of `tcp_slowtmr`. -/
def tcp_slowtmr_tw_loop : Nat → TcpGlobal → TcpGlobal
  | 0, g => g
  | fuel + 1, g =>
    let pr := tcp_iter_next g.iter g.tw
    let g := { g with iter := pr.1 }
    match pr.2 with
    | none => g
    | some i => tcp_slowtmr_tw_loop fuel (tcp_slowtmr_tw_pcb g i)

/-- `tcp_slowtmr`: increment `tcp_ticks` and `tcp_timer_ctr`, scan the
active list under the safe iterator, then scan the tw list. -/
def tcp_slowtmr (env : TcpEnv) (g : TcpGlobal) : TcpGlobal :=
  let g := { g with ticks := u32_add1 g.ticks, timer_ctr := u8_add1 g.timer_ctr }
  let g := { g with iter := tcp_iter_start g.active }
  let g := tcp_slowtmr_active_loop env (g.active.length + 1) g
  let g := { g with iter := tcp_iter_start g.tw }
  tcp_slowtmr_tw_loop (g.tw.length + 1) g

/-- `tcp_tmr`: every 250 ms call `tcp_fasttmr`; every other call also
`tcp_slowtmr` (`++tcp_timer & 1`). -/
def tcp_tmr (env : TcpEnv) (g : TcpGlobal) : TcpGlobal :=
  let g := (tcp_fasttmr env g).1
  let t := (g.timer + 1) % 256
  let g := { g with timer := t }
  if t % 2 = 1 then tcp_slowtmr env g else g

/-! ## Lifecycle: close family, abort, setprio -/

/-- `tcp_close_shutdown`.  `tcp_rst`, `tcp_send_fin` and the final
opportunistic `tcp_output` are external; the segment-queue effect of a
successful `tcp_send_fin` applies to a PCB that stays on the active
list. -/
def tcp_close_shutdown (env : TcpEnv) (g : TcpGlobal) (i : Nat)
    (rst_on_unacked_data : Bool) : Err × TcpGlobal :=
  let p := g.pcbs i
  if rst_on_unacked_data ∧ (p.state = ESTABLISHED ∨ p.state = CLOSE_WAIT) ∧
      p.rcv_wnd ≠ TCP_WND_MAX_C then
    if p.state = ESTABLISHED then (ERR_OK, tcp_move_to_time_wait g i)
    else (ERR_OK, tcp_pcb_free (g.setPcb i { p with ack_delay := false }) i false none)
  else
    match p.state with
    | CLOSED => (ERR_OK, tcp_pcb_free g i false none)
    | SYN_SENT => (ERR_OK, tcp_pcb_free g i false none)
    | SYN_RCVD =>
      let e := env.send_fin i
      if e = ERR_OK then
        let g := tcp_backlog_accepted_internal g i
        (ERR_OK, g.setPcb i { g.pcbs i with state := FIN_WAIT_1 })
      else (e, g)
    | ESTABLISHED =>
      let e := env.send_fin i
      if e = ERR_OK then (ERR_OK, g.setPcb i { g.pcbs i with state := FIN_WAIT_1 })
      else (e, g)
    | CLOSE_WAIT =>
      let e := env.send_fin i
      if e = ERR_OK then (ERR_OK, g.setPcb i { g.pcbs i with state := LAST_ACK })
      else (e, g)
    | _ => (ERR_OK, g)

/-- `tcp_close`: withdraw the user reference, attempt the orderly close,
and on failure RST and free. -/
def tcp_close (env : TcpEnv) (g : TcpGlobal) (i : Nat) : TcpGlobal :=
  let g := g.setPcb i { g.pcbs i with nouser := true }
  let er := tcp_close_shutdown env g i true
  if er.1 ≠ ERR_OK then tcp_pcb_free er.2 i true none else er.2

/-- `tcp_shut_tx`: permitted only in SYN_RCVD, ESTABLISHED, CLOSE_WAIT. -/
def tcp_shut_tx (env : TcpEnv) (g : TcpGlobal) (i : Nat) : Err × TcpGlobal :=
  match (g.pcbs i).state with
  | SYN_RCVD => tcp_close_shutdown env g i false
  | ESTABLISHED => tcp_close_shutdown env g i false
  | CLOSE_WAIT => tcp_close_shutdown env g i false
  | _ => (ERR_CONN, g)

/-- `tcp_abort`. -/
def tcp_abort (g : TcpGlobal) (i : Nat) : TcpGlobal := tcp_pcb_free g i true none

/-- `tcp_close_listen`: clear listener back-references on the connection
lists, then unlink from listen (or bound) and release the listener. -/
def tcp_close_listen (g : TcpGlobal) (li : Nat) : TcpGlobal :=
  if (g.lpcbs li).state = LISTEN then
    let g :=
      (g.active ++ g.tw).foldl
        (fun g j =>
          if (g.pcbs j).listener = some li then
            g.setPcb j { g.pcbs j with listener := none }
          else g)
        g
    { g with listenl := tcp_rmv g.listenl li }
  else
    if (g.lpcbs li).local_port ≠ 0 then { g with bound := tcp_rmv g.bound (.lis li) } else g

/-- `tcp_setprio` on a `tcp_pcb_base`. -/
def tcp_setprio (g : TcpGlobal) (r : PcbRef) (prio : Nat) : TcpGlobal :=
  match r with
  | .conn i => g.setPcb i { g.pcbs i with prio := prio }
  | .lis i => g.setLpcb i { g.lpcbs i with prio := prio }

/-! ## Receive-window advertisement -/

/-- `TCP_SEQ_GEQ(a, b)`: `(s32_t)(a - b) >= 0`. -/
def tcp_seq_geq (a b : Nat) : Bool := decide (u32_sub a b < 2 ^ 31)

/-- `TCP_SEQ_GT(a, b)`: `(s32_t)(a - b) > 0`. -/
def tcp_seq_gt (a b : Nat) : Bool := decide (0 < u32_sub a b ∧ u32_sub a b < 2 ^ 31)

/-- `tcp_update_rcv_ann_wnd`, returning the window inflation together with
the new state. -/
def tcp_update_rcv_ann_wnd (g : TcpGlobal) (i : Nat) : Nat × TcpGlobal :=
  let p := g.pcbs i
  let new_right_edge := (p.rcv_nxt + p.rcv_wnd) % 2 ^ 32
  if tcp_seq_geq new_right_edge ((p.rcv_ann_right_edge + min (TCP_WND / 2) p.mss) % 2 ^ 32) then
    (u32_sub new_right_edge p.rcv_ann_right_edge, g.setPcb i { p with rcv_ann_wnd := p.rcv_wnd })
  else if tcp_seq_gt p.rcv_nxt p.rcv_ann_right_edge then
    (0, g.setPcb i { p with rcv_ann_wnd := 0 })
  else
    (0, g.setPcb i { p with rcv_ann_wnd := u32_sub p.rcv_ann_right_edge p.rcv_nxt })

/-- `tcp_recved_internal`: open the receive window by `len`
(`tcpwnd_size_t` is 16-bit without window scaling), clamp, update the
advertisement, and on a significant inflation force an immediate ACK
(`tcp_ack_now`; `tcp_output` is external). -/
def tcp_recved_internal (g : TcpGlobal) (i : Nat) (len : Nat) : TcpGlobal :=
  let p := g.pcbs i
  let w := (p.rcv_wnd + len) % 65536
  let p :=
    if w > TCP_WND_MAX_C then { p with rcv_wnd := TCP_WND_MAX_C }
    else if w = 0 then
      if p.state = CLOSE_WAIT ∨ p.state = LAST_ACK then { p with rcv_wnd := TCP_WND_MAX_C }
      else { p with rcv_wnd := w }
    else { p with rcv_wnd := w }
  let pr := tcp_update_rcv_ann_wnd (g.setPcb i p) i
  if pr.1 ≥ TCP_WND_UPDATE_THRESHOLD then
    pr.2.setPcb i { pr.2.pcbs i with ack_now := true }
  else pr.2

/-! ## Address-change notifier -/

/-- The connection-list pass of `tcp_netif_ipv4_addr_changed`: abort every
IPv4 connection PCB bound to the old address.  The C loop saves `next`
before freeing, so folding over the snapshot of the identifiers is the
same traversal. -/
def tcp_netif_addr_changed_conn (old_addr : IpAddr) (ids : List Nat) (g : TcpGlobal) :
    TcpGlobal :=
  ids.foldl
    (fun g j =>
      let p := g.pcbs j
      if p.local_ip.is_v6 = false ∧ ip_addr_cmp p.local_ip old_addr then
        tcp_pcb_free (tcp_report_err g j ERR_ABRT) j true none
      else g)
    g

/-- The bound-list pass: listener entries fail the `!tcp_pcb_is_listen`
test and are skipped. -/
def tcp_netif_addr_changed_bound (old_addr : IpAddr) (refs : List PcbRef) (g : TcpGlobal) :
    TcpGlobal :=
  refs.foldl
    (fun g r =>
      match r with
      | .lis _ => g
      | .conn j =>
        let p := g.pcbs j
        if p.local_ip.is_v6 = false ∧ ip_addr_cmp p.local_ip old_addr then
          tcp_pcb_free (tcp_report_err g j ERR_ABRT) j true none
        else g)
    g

/-- `tcp_netif_ipv4_addr_changed`: abort affected connection PCBs on the
active and bound lists; rebind affected listeners to the new address when
one exists. -/
def tcp_netif_ipv4_addr_changed (g : TcpGlobal) (old_addr new_addr : IpAddr) : TcpGlobal :=
  let g := tcp_netif_addr_changed_conn old_addr g.active g
  let g := tcp_netif_addr_changed_bound old_addr g.bound g
  if new_addr.is_any = false then
    g.listenl.foldl
      (fun g lj =>
        let lp := g.lpcbs lj
        if lp.local_ip.is_v6 = false ∧ lp.local_ip.is_any = false ∧
            ip_addr_cmp lp.local_ip old_addr then
          g.setLpcb lj { lp with local_ip := new_addr }
        else g)
      g
  else g

/-! ## Lemmas about the intrusive-list helpers -/

/-- The C relation `prev->next == current` (with `prev == NULL` meaning
`current` is the list head). -/
def iterLinked (l : List Nat) (prev cur : Option Nat) : Prop :=
  match prev with
  | none => l.head? = cur
  | some q => succAfter l q = cur

theorem predScan_acc_isSome (u : List Nat) (pp a : Nat) :
    (predScan u pp (some a)).isSome := by
  induction u generalizing a with
  | nil => simp [predScan]
  | cons x t ih =>
    simp only [predScan]
    split
    · simp
    · exact ih x

theorem predBefore_none_head {l : List Nat} {p : Nat} (hp : p ∈ l)
    (h : predBefore l p = none) : ∃ t, l = p :: t := by
  cases l with
  | nil => cases hp
  | cons x t =>
    by_cases hxp : x = p
    · exact ⟨t, by rw [hxp]⟩
    · exfalso
      have hs := predScan_acc_isSome t p x
      unfold predBefore predScan at h
      rw [if_neg hxp] at h
      rw [h] at hs
      simp at hs

theorem predScan_mem {u : List Nat} {pp a q : Nat}
    (h : predScan u pp (some a) = some q) : q = a ∨ q ∈ u := by
  induction u generalizing a with
  | nil =>
    simp [predScan] at h
    exact Or.inl h.symm
  | cons x t ih =>
    simp only [predScan] at h
    split at h
    · exact Or.inl (Option.some_injective _ h).symm
    · rcases ih h with h1 | h2
      · exact Or.inr (h1 ▸ List.mem_cons_self x t)
      · exact Or.inr (List.mem_cons_of_mem x h2)

theorem succAfter_erase_pred {l : List Nat} {p q : Nat} (hnd : l.Nodup)
    (hp : p ∈ l) (h : predBefore l p = some q) :
    succAfter (l.erase p) q = succAfter l p := by
  induction l with
  | nil => cases hp
  | cons x t ih =>
    by_cases hxp : x = p
    · exfalso
      unfold predBefore predScan at h
      rw [if_pos hxp] at h
      cases h
    · have hpt : p ∈ t := by
        rcases List.mem_cons.mp hp with h1 | h2
        · exact absurd h1.symm hxp
        · exact h2
      have herase : (x :: t).erase p = x :: t.erase p := by
        rw [List.erase_cons]
        simp [hxp]
      have hps : predScan t p (some x) = some q := by
        unfold predBefore predScan at h
        rw [if_neg hxp] at h
        exact h
      have hsx : succAfter (x :: t) p = succAfter t p := by
        simp [succAfter, hxp]
      cases t with
      | nil => cases hpt
      | cons y u =>
        by_cases hyp : y = p
        · have hqx : q = x := by
            simp only [predScan, if_pos hyp] at hps
            exact (Option.some_injective _ hps).symm
          subst hqx
          rw [herase, hsx]
          have h1 : (y :: u).erase p = u := by
            rw [List.erase_cons]
            simp [hyp]
          rw [h1]
          simp only [succAfter, if_pos rfl]
          simp [succAfter, hyp]
        · have hps' : predScan u p (some y) = some q := by
            simp only [predScan, if_neg hyp] at hps
            exact hps
          have hpb : predBefore (y :: u) p = some q := by
            unfold predBefore predScan
            rw [if_neg hyp]
            exact hps'
          have hnd' : (y :: u).Nodup := hnd.of_cons
          have ih' := ih hnd' hpt hpb
          have hq : q = y ∨ q ∈ u := predScan_mem hps'
          have hxq : x ≠ q := by
            intro hxqe
            have hxny : x ∉ y :: u := (List.nodup_cons.mp hnd).1
            rcases hq with h1 | h2
            · exact hxny (by rw [hxqe, h1]; exact List.mem_cons_self y u)
            · exact hxny (List.mem_cons_of_mem y (hxqe ▸ h2))
          rw [herase, hsx]
          have hlhs : succAfter (x :: (y :: u).erase p) q = succAfter ((y :: u).erase p) q := by
            simp only [succAfter]
            rw [if_neg hxq]
          calc succAfter (x :: (y :: u).erase p) q
              = succAfter ((y :: u).erase p) q := hlhs
            _ = succAfter (y :: u) p := ih'

/-! ## Claim C3: iterator safety under deletion -/

/-- C3: during a safe-iterator scan of a list `l` with current PCB `c`:
(a) when `tcp_iter_will_remove` is invoked for the current PCB and that PCB
is then unlinked, the next `tcp_iter_next` returns the original successor
of the removed PCB; (b) when it is invoked for the `prev` PCB (for which
the code asserts `pcb->next == it->current`), the iterator's `prev` field
is repaired to the predecessor of `prev` in the list (`none` when `prev`
was the head), so that `prev.next == current` again holds after the
unlink. -/
theorem C3_iter_safety (l : List Nat) (it : TcpIter) (p c : Nat)
    (hnd : l.Nodup) (hc : it.current = some c) (hp : p ∈ l) :
    (p = c →
      (tcp_iter_next (tcp_iter_will_remove it p l) (tcp_rmv l p)).2 = succAfter l p)
    ∧
    (it.prev = some p → p ≠ c → succAfter l p = some c →
      (tcp_iter_will_remove it p l).prev = predBefore l p ∧
      iterLinked (tcp_rmv l p) (tcp_iter_will_remove it p l).prev (some c)) := by
  constructor
  · intro hpc
    simp only [tcp_iter_will_remove, hc, if_pos hpc, tcp_iter_next, if_pos]
  · intro hprev hpc hsucc
    have hwr : tcp_iter_will_remove it p l = { it with prev := predBefore l p } := by
      simp only [tcp_iter_will_remove, hc, if_neg hpc, if_pos hprev]
    rw [hwr]
    refine ⟨rfl, ?_⟩
    simp only
    cases hpb : predBefore l p with
    | none =>
      obtain ⟨t, rfl⟩ := predBefore_none_head hp hpb
      have h1 : (p :: t).erase p = t := by
        rw [List.erase_cons]
        simp
      have h2 : succAfter (p :: t) p = t.head? := by
        simp [succAfter]
      unfold iterLinked tcp_rmv
      rw [h1, ← h2, hsucc]
    | some q =>
      show succAfter (tcp_rmv l p) q = some c
      unfold tcp_rmv
      rw [succAfter_erase_pred hnd hp hpb, hsucc]

/-- Witness for C3: a concrete three-element scan, exercising both the
current-removal and the prev-removal branches. -/
theorem C3_iter_safety_witness :
    ((tcp_iter_next (tcp_iter_will_remove ⟨some 2, some 1, false⟩ 2 [1, 2, 3])
        (tcp_rmv [1, 2, 3] 2)).2 = succAfter [1, 2, 3] 2)
    ∧ (tcp_iter_will_remove ⟨some 3, some 2, false⟩ 2 [1, 2, 3]).prev =
        predBefore [1, 2, 3] 2
    ∧ iterLinked (tcp_rmv [1, 2, 3] 2)
        ((tcp_iter_will_remove ⟨some 3, some 2, false⟩ 2 [1, 2, 3]).prev) (some 3) := by
  refine ⟨?_, ?_, ?_⟩
  · exact (C3_iter_safety [1, 2, 3] ⟨some 2, some 1, false⟩ 2 2 (by decide) rfl
      (by decide)).1 rfl
  · exact ((C3_iter_safety [1, 2, 3] ⟨some 3, some 2, false⟩ 2 3 (by decide) rfl
      (by decide)).2 rfl (by decide) (by decide)).1
  · exact ((C3_iter_safety [1, 2, 3] ⟨some 3, some 2, false⟩ 2 3 (by decide) rfl
      (by decide)).2 rfl (by decide) (by decide)).2

/-! ## Claim C7: backlog round-trip and idempotence -/

/-- C7 counterexample state: a PCB that is already backlog-pending on
listener 0, whose `accepts_pending` is 1. -/
def g7c : TcpGlobal :=
  { pcbs := fun _ => { listener := some 0, backlogpend := true, state := SYN_RCVD }
    lpcbs := fun _ => { accepts_pending := 1, state := LISTEN } }

/-- C7 counterexample: on a PCB that is already pending,
`backlog_delayed` is a no-op but `backlog_accepted` still decrements, so
the pair does not leave `accepts_pending` at its original value, contrary
to the claim's unconditional round-trip. -/
theorem C7_backlog_counterexample :
    ((tcp_backlog_accepted_internal (tcp_backlog_delayed_internal g7c 0) 0).lpcbs 0).accepts_pending
      ≠ (g7c.lpcbs 0).accepts_pending := by decide

/-- C7 (amended): if the PCB is not already pending, `backlog_delayed`
followed by `backlog_accepted` leaves every listener's `accepts_pending`
at its original value; `backlog_delayed` twice equals `backlog_delayed`
once (so it increments at most once, and the increment together with
`TF_BACKLOGPEND` happens iff not already pending with a live listener);
`backlog_accepted` twice equals `backlog_accepted` once; and under the
store invariant (`accepts_pending` at least 1 while a PCB is pending) a
pending `backlog_accepted` decrements by exactly one, never below zero. -/
theorem C7_backlog (g : TcpGlobal) (i : Nat) :
    ((g.pcbs i).backlogpend = false →
      ∀ L, ((tcp_backlog_accepted_internal (tcp_backlog_delayed_internal g i) i).lpcbs L).accepts_pending
        = (g.lpcbs L).accepts_pending)
    ∧ tcp_backlog_delayed_internal (tcp_backlog_delayed_internal g i) i
        = tcp_backlog_delayed_internal g i
    ∧ tcp_backlog_accepted_internal (tcp_backlog_accepted_internal g i) i
        = tcp_backlog_accepted_internal g i
    ∧ (∀ L, (g.pcbs i).listener = some L → (g.pcbs i).backlogpend = true →
        1 ≤ (g.lpcbs L).accepts_pending →
        ((tcp_backlog_accepted_internal g i).lpcbs L).accepts_pending + 1
          = (g.lpcbs L).accepts_pending) := by
  refine ⟨?_, ?_, ?_, ?_⟩
  · intro hbp L
    cases hL : (g.pcbs i).listener with
    | none =>
      simp [tcp_backlog_delayed_internal, tcp_backlog_accepted_internal, hL, hbp]
    | some li =>
      by_cases hLi : L = li
      · subst hLi
        simp [tcp_backlog_delayed_internal, tcp_backlog_accepted_internal, hL, hbp,
          TcpGlobal.setPcb, TcpGlobal.setLpcb]
      · simp [tcp_backlog_delayed_internal, tcp_backlog_accepted_internal, hL, hbp,
          TcpGlobal.setPcb, TcpGlobal.setLpcb, hLi]
  · cases hL : (g.pcbs i).listener with
    | none => simp [tcp_backlog_delayed_internal, hL]
    | some li =>
      by_cases hbp : (g.pcbs i).backlogpend
      · simp [tcp_backlog_delayed_internal, hL, hbp]
      · simp [tcp_backlog_delayed_internal, hL, hbp, TcpGlobal.setPcb, TcpGlobal.setLpcb]
  · cases hL : (g.pcbs i).listener with
    | none => simp [tcp_backlog_accepted_internal, hL]
    | some li =>
      by_cases hbp : (g.pcbs i).backlogpend
      · simp [tcp_backlog_accepted_internal, hL, hbp, TcpGlobal.setPcb, TcpGlobal.setLpcb]
      · simp [tcp_backlog_accepted_internal, hL, hbp]
  · intro L hL hbp hap
    simp [tcp_backlog_accepted_internal, hL, hbp, TcpGlobal.setPcb, TcpGlobal.setLpcb]
    omega

/-- C7 witness state for the round-trip part: not yet pending, listener 0
with five outstanding accepts. -/
def g7w : TcpGlobal :=
  { pcbs := fun _ => { listener := some 0, backlogpend := false, state := SYN_RCVD }
    lpcbs := fun _ => { accepts_pending := 5, state := LISTEN } }

/-- Witness for C7, discharging the hypotheses of the round-trip part at
`g7w` and of the exact-decrement part at `g7c`. -/
theorem C7_backlog_witness :
    (((tcp_backlog_accepted_internal (tcp_backlog_delayed_internal g7w 0) 0).lpcbs 0).accepts_pending
      = (g7w.lpcbs 0).accepts_pending)
    ∧ (((tcp_backlog_accepted_internal g7c 0).lpcbs 0).accepts_pending + 1
      = (g7c.lpcbs 0).accepts_pending) :=
  ⟨(C7_backlog g7w 0).1 rfl 0, (C7_backlog g7c 0).2.2.2 0 rfl rfl (by decide)⟩

/-! ## Projection lemmas for the state helpers -/

@[simp] theorem setPcb_pcbs (g : TcpGlobal) (i : Nat) (p : TcpPcb) (j : Nat) :
    (g.setPcb i p).pcbs j = if j = i then p else g.pcbs j := rfl

@[simp] theorem setPcb_lpcbs (g : TcpGlobal) (i : Nat) (p : TcpPcb) :
    (g.setPcb i p).lpcbs = g.lpcbs := rfl

@[simp] theorem setPcb_active (g : TcpGlobal) (i : Nat) (p : TcpPcb) :
    (g.setPcb i p).active = g.active := rfl

@[simp] theorem setPcb_tw (g : TcpGlobal) (i : Nat) (p : TcpPcb) :
    (g.setPcb i p).tw = g.tw := rfl

@[simp] theorem setPcb_bound (g : TcpGlobal) (i : Nat) (p : TcpPcb) :
    (g.setPcb i p).bound = g.bound := rfl

@[simp] theorem setPcb_listenl (g : TcpGlobal) (i : Nat) (p : TcpPcb) :
    (g.setPcb i p).listenl = g.listenl := rfl

@[simp] theorem setPcb_iter (g : TcpGlobal) (i : Nat) (p : TcpPcb) :
    (g.setPcb i p).iter = g.iter := rfl

@[simp] theorem setPcb_ticks (g : TcpGlobal) (i : Nat) (p : TcpPcb) :
    (g.setPcb i p).ticks = g.ticks := rfl

@[simp] theorem setPcb_timer_ctr (g : TcpGlobal) (i : Nat) (p : TcpPcb) :
    (g.setPcb i p).timer_ctr = g.timer_ctr := rfl

@[simp] theorem setPcb_input_pcb (g : TcpGlobal) (i : Nat) (p : TcpPcb) :
    (g.setPcb i p).input_pcb = g.input_pcb := rfl

@[simp] theorem setLpcb_lpcbs (g : TcpGlobal) (i : Nat) (lp : TcpPcbListen) (j : Nat) :
    (g.setLpcb i lp).lpcbs j = if j = i then lp else g.lpcbs j := rfl

@[simp] theorem setLpcb_pcbs (g : TcpGlobal) (i : Nat) (lp : TcpPcbListen) :
    (g.setLpcb i lp).pcbs = g.pcbs := rfl

@[simp] theorem setLpcb_active (g : TcpGlobal) (i : Nat) (lp : TcpPcbListen) :
    (g.setLpcb i lp).active = g.active := rfl

@[simp] theorem setLpcb_tw (g : TcpGlobal) (i : Nat) (lp : TcpPcbListen) :
    (g.setLpcb i lp).tw = g.tw := rfl

@[simp] theorem setLpcb_bound (g : TcpGlobal) (i : Nat) (lp : TcpPcbListen) :
    (g.setLpcb i lp).bound = g.bound := rfl

@[simp] theorem setLpcb_listenl (g : TcpGlobal) (i : Nat) (lp : TcpPcbListen) :
    (g.setLpcb i lp).listenl = g.listenl := rfl

@[simp] theorem setLpcb_iter (g : TcpGlobal) (i : Nat) (lp : TcpPcbListen) :
    (g.setLpcb i lp).iter = g.iter := rfl

@[simp] theorem setLpcb_ticks (g : TcpGlobal) (i : Nat) (lp : TcpPcbListen) :
    (g.setLpcb i lp).ticks = g.ticks := rfl

@[simp] theorem setLpcb_timer_ctr (g : TcpGlobal) (i : Nat) (lp : TcpPcbListen) :
    (g.setLpcb i lp).timer_ctr = g.timer_ctr := rfl

@[simp] theorem setLpcb_input_pcb (g : TcpGlobal) (i : Nat) (lp : TcpPcbListen) :
    (g.setLpcb i lp).input_pcb = g.input_pcb := rfl

@[simp] theorem tcp_backlog_accepted_internal_active (g : TcpGlobal) (i : Nat) :
    (tcp_backlog_accepted_internal g i).active = g.active := by
  cases hL : (g.pcbs i).listener <;>
    by_cases hbp : (g.pcbs i).backlogpend <;>
      simp [tcp_backlog_accepted_internal, hL, hbp]

@[simp] theorem tcp_backlog_accepted_internal_tw (g : TcpGlobal) (i : Nat) :
    (tcp_backlog_accepted_internal g i).tw = g.tw := by
  cases hL : (g.pcbs i).listener <;>
    by_cases hbp : (g.pcbs i).backlogpend <;>
      simp [tcp_backlog_accepted_internal, hL, hbp]

@[simp] theorem tcp_backlog_accepted_internal_bound (g : TcpGlobal) (i : Nat) :
    (tcp_backlog_accepted_internal g i).bound = g.bound := by
  cases hL : (g.pcbs i).listener <;>
    by_cases hbp : (g.pcbs i).backlogpend <;>
      simp [tcp_backlog_accepted_internal, hL, hbp]

@[simp] theorem tcp_backlog_accepted_internal_listenl (g : TcpGlobal) (i : Nat) :
    (tcp_backlog_accepted_internal g i).listenl = g.listenl := by
  cases hL : (g.pcbs i).listener <;>
    by_cases hbp : (g.pcbs i).backlogpend <;>
      simp [tcp_backlog_accepted_internal, hL, hbp]

@[simp] theorem tcp_backlog_accepted_internal_iter (g : TcpGlobal) (i : Nat) :
    (tcp_backlog_accepted_internal g i).iter = g.iter := by
  cases hL : (g.pcbs i).listener <;>
    by_cases hbp : (g.pcbs i).backlogpend <;>
      simp [tcp_backlog_accepted_internal, hL, hbp]

@[simp] theorem tcp_backlog_accepted_internal_input_pcb (g : TcpGlobal) (i : Nat) :
    (tcp_backlog_accepted_internal g i).input_pcb = g.input_pcb := by
  cases hL : (g.pcbs i).listener <;>
    by_cases hbp : (g.pcbs i).backlogpend <;>
      simp [tcp_backlog_accepted_internal, hL, hbp]

@[simp] theorem tcp_pcb_purge_active (g : TcpGlobal) (i : Nat) :
    (tcp_pcb_purge g i).active = g.active := by
  simp [tcp_pcb_purge]

@[simp] theorem tcp_pcb_purge_tw (g : TcpGlobal) (i : Nat) :
    (tcp_pcb_purge g i).tw = g.tw := by
  simp [tcp_pcb_purge]

@[simp] theorem tcp_pcb_purge_bound (g : TcpGlobal) (i : Nat) :
    (tcp_pcb_purge g i).bound = g.bound := by
  simp [tcp_pcb_purge]

@[simp] theorem tcp_pcb_purge_listenl (g : TcpGlobal) (i : Nat) :
    (tcp_pcb_purge g i).listenl = g.listenl := by
  simp [tcp_pcb_purge]

@[simp] theorem tcp_pcb_purge_iter (g : TcpGlobal) (i : Nat) :
    (tcp_pcb_purge g i).iter = g.iter := by
  simp [tcp_pcb_purge]

@[simp] theorem tcp_report_err_active (g : TcpGlobal) (i : Nat) (e : Err) :
    (tcp_report_err g i e).active = g.active := by
  by_cases hn : (g.pcbs i).nouser = false <;> simp [tcp_report_err, hn]

@[simp] theorem tcp_report_err_tw (g : TcpGlobal) (i : Nat) (e : Err) :
    (tcp_report_err g i e).tw = g.tw := by
  by_cases hn : (g.pcbs i).nouser = false <;> simp [tcp_report_err, hn]

@[simp] theorem tcp_report_err_bound (g : TcpGlobal) (i : Nat) (e : Err) :
    (tcp_report_err g i e).bound = g.bound := by
  by_cases hn : (g.pcbs i).nouser = false <;> simp [tcp_report_err, hn]

@[simp] theorem tcp_report_err_listenl (g : TcpGlobal) (i : Nat) (e : Err) :
    (tcp_report_err g i e).listenl = g.listenl := by
  by_cases hn : (g.pcbs i).nouser = false <;> simp [tcp_report_err, hn]

@[simp] theorem tcp_report_err_iter (g : TcpGlobal) (i : Nat) (e : Err) :
    (tcp_report_err g i e).iter = g.iter := by
  by_cases hn : (g.pcbs i).nouser = false <;> simp [tcp_report_err, hn]

@[simp] theorem tcp_report_err_input_pcb (g : TcpGlobal) (i : Nat) (e : Err) :
    (tcp_report_err g i e).input_pcb = g.input_pcb := by
  by_cases hn : (g.pcbs i).nouser = false <;> simp [tcp_report_err, hn]

theorem tcp_report_err_pcbs_state (g : TcpGlobal) (i : Nat) (e : Err) (j : Nat) :
    ((tcp_report_err g i e).pcbs j).state = (g.pcbs j).state := by
  by_cases hn : (g.pcbs i).nouser = false <;>
    by_cases hj : j = i <;>
      simp [tcp_report_err, hn, hj]

theorem tcp_report_err_pcbs_ack_delay (g : TcpGlobal) (i : Nat) (e : Err) (j : Nat) :
    ((tcp_report_err g i e).pcbs j).ack_delay = (g.pcbs j).ack_delay := by
  by_cases hn : (g.pcbs i).nouser = false <;>
    by_cases hj : j = i <;>
      simp [tcp_report_err, hn, hj]

/-- In the active-state branch with no predecessor fast path,
`tcp_pcb_free` unlinks exactly the victim from the active list. -/
theorem tcp_pcb_free_active_of_active (g : TcpGlobal) (i : Nat) (rst : Bool)
    (h : tcp_state_is_active (g.pcbs i).state = true) :
    (tcp_pcb_free g i rst none).active = tcp_rmv g.active i := by
  have h1 : ¬((g.pcbs i).state = CLOSED) := by
    intro hc
    rw [hc] at h
    simp [tcp_state_is_active] at h
  by_cases hin : g.input_pcb = some i <;>
    by_cases had : (g.pcbs i).ack_delay <;>
      simp [tcp_pcb_free, hin, h1, h, had]

/-! ## Claim C1: the priority-kill victim -/

theorem tcp_kill_prio_loop_some (g : TcpGlobal) (l : List Nat) :
    ∀ (m a j : Nat), ∃ v, tcp_kill_prio_loop g l m a (some j) = some v := by
  induction l with
  | nil => intro m a j; exact ⟨j, rfl⟩
  | cons x rest ih =>
    intro m a j
    simp only [tcp_kill_prio_loop]
    split
    · exact ih _ _ x
    · exact ih m a j

theorem tcp_kill_prio_loop_none_iff (g : TcpGlobal) (l : List Nat) :
    ∀ (m a : Nat),
      (tcp_kill_prio_loop g l m a none = none ↔
        ∀ j ∈ l, ¬((g.pcbs j).prio ≤ m ∧ u32_sub g.ticks (g.pcbs j).tmr ≥ a)) := by
  induction l with
  | nil => intro m a; simp [tcp_kill_prio_loop]
  | cons x rest ih =>
    intro m a
    simp only [tcp_kill_prio_loop]
    split
    case isTrue h =>
      constructor
      · intro hn
        obtain ⟨v, hv⟩ := tcp_kill_prio_loop_some g rest _ _ x
        rw [hv] at hn
        cases hn
      · intro hall
        exact absurd h (hall x (List.mem_cons_self x rest))
    case isFalse h =>
      rw [ih m a]
      constructor
      · intro hall j hj
        rcases List.mem_cons.mp hj with rfl | hj'
        · exact h
        · exact hall j hj'
      · intro hall j hj
        exact hall j (List.mem_cons_of_mem x hj)

theorem tcp_kill_prio_loop_spec (g : TcpGlobal) (l : List Nat) :
    ∀ (m a : Nat) (acc : Option Nat) (v : Nat),
      l.Nodup → (∀ x, acc = some x → x ∉ l) →
      tcp_kill_prio_loop g l m a acc = some v →
      (acc = some v ∧
        ∀ j ∈ l, ¬((g.pcbs j).prio ≤ m ∧ u32_sub g.ticks (g.pcbs j).tmr ≥ a))
      ∨ (∃ l1 l2, l = l1 ++ v :: l2 ∧
          (g.pcbs v).prio ≤ m ∧ u32_sub g.ticks (g.pcbs v).tmr ≥ a ∧
          ∀ j ∈ l2, ¬((g.pcbs j).prio ≤ (g.pcbs v).prio ∧
            u32_sub g.ticks (g.pcbs j).tmr ≥ u32_sub g.ticks (g.pcbs v).tmr)) := by
  induction l with
  | nil =>
    intro m a acc v _ _ h
    left
    exact ⟨h, by simp⟩
  | cons x rest ih =>
    intro m a acc v hnd hacc h
    simp only [tcp_kill_prio_loop] at h
    split at h
    case isTrue hsel =>
      have hxrest : x ∉ rest := (List.nodup_cons.mp hnd).1
      have hrec := ih _ _ (some x) v (List.nodup_cons.mp hnd).2
        (fun y hy => by
          injection hy with hy
          exact hy ▸ hxrest) h
      rcases hrec with ⟨hav, hall⟩ | ⟨l1, l2, heq, hp, ha, hsuf⟩
      · right
        have hvx : x = v := Option.some_injective _ hav
        subst hvx
        exact ⟨[], rest, rfl, hsel.1, hsel.2, hall⟩
      · right
        exact ⟨x :: l1, l2, by rw [heq]; rfl, hp.trans hsel.1, le_trans hsel.2 ha, hsuf⟩
    case isFalse hsel =>
      have hrec := ih m a acc v (List.nodup_cons.mp hnd).2
        (fun y hy hmem => hacc y hy (List.mem_cons_of_mem x hmem)) h
      rcases hrec with ⟨hav, hall⟩ | ⟨l1, l2, heq, hp, ha, hsuf⟩
      · left
        refine ⟨hav, ?_⟩
        intro j hj
        rcases List.mem_cons.mp hj with rfl | hj'
        · exact hsel
        · exact hall j hj'
      · right
        exact ⟨x :: l1, l2, by rw [heq]; rfl, hp, ha, hsuf⟩

/-- C1 counterexample state: two established PCBs on the active list at
`tcp_ticks = 100`: PCB 0 with priority 5 and age 10, PCB 1 with priority 3
(the minimum among eligibles) but age only 2. -/
def g1c : TcpGlobal :=
  { pcbs := fun j =>
      if j = 0 then { prio := 5, tmr := 90, state := ESTABLISHED }
      else { prio := 3, tmr := 98, state := ESTABLISHED }
    lpcbs := fun _ => {}
    active := [0, 1]
    ticks := 100 }

/-- C1 counterexample: on `tcp_kill_prio(10)` over `g1c` the scan selects
PCB 0 (priority 5), even though the eligible PCB 1 has the strictly
smaller priority 3 — the victim is not the minimum-priority eligible PCB,
because the scan also requires each candidate to be at least as old as the
current best. -/
theorem C1_kill_prio_counterexample :
    tcp_kill_prio_select g1c 10 = some 0 ∧
    1 ∈ g1c.active ∧
    (g1c.pcbs 1).prio ≤ min TCP_PRIO_MAX 10 ∧
    (g1c.pcbs 1).prio < (g1c.pcbs 0).prio := by decide

/-- C1 (amended): a call to `tcp_kill_prio(prio)` frees a PCB iff some
active PCB is eligible (`prio ≤ min(prio, TCP_PRIO_MAX)`), and then frees
exactly one: the victim of the greedy scan, which is itself eligible, is
unlinked from the active list, and is such that every PCB after it in list
order has either strictly higher priority or strictly smaller age
`tcp_ticks − tmr` — the scan lowers the priority ceiling and raises the
age bar as it selects, so the victim need not be the globally
minimum-priority eligible PCB. -/
theorem C1_kill_prio (g : TcpGlobal) (prio : Nat)
    (hnd : g.active.Nodup)
    (hact : ∀ j ∈ g.active, tcp_state_is_active (g.pcbs j).state = true) :
    (tcp_kill_prio_select g prio = none ↔
      ∀ j ∈ g.active, ¬((g.pcbs j).prio ≤ min TCP_PRIO_MAX prio))
    ∧ (tcp_kill_prio_select g prio = none → tcp_kill_prio g prio = g)
    ∧ ∀ v, tcp_kill_prio_select g prio = some v →
        v ∈ g.active ∧ (g.pcbs v).prio ≤ min TCP_PRIO_MAX prio ∧
        (tcp_kill_prio g prio).active = tcp_rmv g.active v ∧
        ∃ l1 l2, g.active = l1 ++ v :: l2 ∧
          ∀ j ∈ l2, ¬((g.pcbs j).prio ≤ (g.pcbs v).prio ∧
            u32_sub g.ticks (g.pcbs j).tmr ≥ u32_sub g.ticks (g.pcbs v).tmr) := by
  refine ⟨?_, ?_, ?_⟩
  · unfold tcp_kill_prio_select
    rw [tcp_kill_prio_loop_none_iff]
    constructor
    · intro hall j hj hle
      exact hall j hj ⟨hle, Nat.zero_le _⟩
    · intro hall j hj hle
      exact hall j hj hle.1
  · intro hnone
    unfold tcp_kill_prio
    rw [hnone]
  · intro v hv
    have hspec := tcp_kill_prio_loop_spec g g.active _ _ none v hnd
      (fun y hy => by cases hy) hv
    rcases hspec with ⟨hav, _⟩ | ⟨l1, l2, heq, hp, _, hsuf⟩
    · cases hav
    · have hvmem : v ∈ g.active := by
        rw [heq]
        exact List.mem_append_right l1 (List.mem_cons_self v l2)
      refine ⟨hvmem, hp, ?_, l1, l2, heq, hsuf⟩
      unfold tcp_kill_prio
      rw [hv]
      have hst : tcp_state_is_active
          ((tcp_report_err g v ERR_ABRT).pcbs v).state = true := by
        rw [tcp_report_err_pcbs_state]
        exact hact v hvmem
      rw [tcp_pcb_free_active_of_active _ v true hst, tcp_report_err_active]

/-- Witness for C1, instantiating the theorem at the concrete state `g1c`
with priority argument 10 and victim 0. -/
theorem C1_kill_prio_witness :
    0 ∈ g1c.active ∧ (g1c.pcbs 0).prio ≤ min TCP_PRIO_MAX 10 ∧
    (tcp_kill_prio g1c 10).active = tcp_rmv g1c.active 0 ∧
    ∃ l1 l2, g1c.active = l1 ++ 0 :: l2 ∧
      ∀ j ∈ l2, ¬((g1c.pcbs j).prio ≤ (g1c.pcbs 0).prio ∧
        u32_sub g1c.ticks (g1c.pcbs j).tmr ≥ u32_sub g1c.ticks (g1c.pcbs 0).tmr) :=
  (C1_kill_prio g1c 10 (by decide) (by decide)).2.2 0 (by decide)

/-! ## Claim C8: the ephemeral port allocator -/

/-- Membership in the ephemeral range [49152, 65535]. -/
def portInRange (p : Nat) : Prop :=
  TCP_LOCAL_PORT_RANGE_START ≤ p ∧ p ≤ TCP_LOCAL_PORT_RANGE_END

instance (p : Nat) : Decidable (portInRange p) := by
  unfold portInRange
  infer_instance

/-- Iterated cursor advance. -/
def iterAdv : Nat → Nat → Nat
  | 0, c => c
  | k + 1, c => iterAdv k (advancePort c)

theorem contains_eq_true_iff {l : List Nat} {x : Nat} : l.contains x = true ↔ x ∈ l := by
  simp

theorem advancePort_inRange {c : Nat} (h : portInRange c) : portInRange (advancePort c) := by
  simp only [portInRange, advancePort, TCP_LOCAL_PORT_RANGE_START,
    TCP_LOCAL_PORT_RANGE_END] at *
  split <;> omega

theorem advancePort_formula {c : Nat} (h : portInRange c) :
    advancePort c = 49152 + ((c - 49152 + 1) % 16384) := by
  simp only [portInRange, TCP_LOCAL_PORT_RANGE_START, TCP_LOCAL_PORT_RANGE_END] at h
  simp only [advancePort, TCP_LOCAL_PORT_RANGE_START, TCP_LOCAL_PORT_RANGE_END]
  split
  · next he => subst he; decide
  · next hne => omega

theorem iterAdv_formula (k : Nat) : ∀ (c : Nat), portInRange c →
    iterAdv k c = 49152 + ((c - 49152 + k) % 16384) := by
  induction k with
  | zero =>
    intro c h
    have hS : TCP_LOCAL_PORT_RANGE_START = 49152 := rfl
    have hE : TCP_LOCAL_PORT_RANGE_END = 65535 := rfl
    unfold portInRange at h
    rw [hS, hE] at h
    unfold iterAdv
    omega
  | succ k ih =>
    intro c h
    have hS : TCP_LOCAL_PORT_RANGE_START = 49152 := rfl
    have hE : TCP_LOCAL_PORT_RANGE_END = 65535 := rfl
    have h' := advancePort_inRange h
    show iterAdv k (advancePort c) = _
    rw [ih (advancePort c) h', advancePort_formula h]
    have hx : 49152 + ((c - 49152 + 1) % 16384) - 49152 + k = (c - 49152 + 1) % 16384 + k := by
      omega
    rw [hx, Nat.mod_add_mod]
    have hy : c - 49152 + 1 + k = c - 49152 + (k + 1) := by omega
    rw [hy]

theorem iterAdv_inRange (k : Nat) {c : Nat} (h : portInRange c) :
    portInRange (iterAdv k c) := by
  have hS : TCP_LOCAL_PORT_RANGE_START = 49152 := rfl
  have hE : TCP_LOCAL_PORT_RANGE_END = 65535 := rfl
  rw [iterAdv_formula k c h]
  unfold portInRange
  rw [hS, hE]
  have := Nat.mod_lt (c - 49152 + k) (show 0 < 16384 by omega)
  omega

theorem iterAdv_coverage {c p : Nat} (hc : portInRange c) (hp : portInRange p) :
    ∃ k, 1 ≤ k ∧ k ≤ 16384 ∧ iterAdv k c = p := by
  have hS : TCP_LOCAL_PORT_RANGE_START = 49152 := rfl
  have hE : TCP_LOCAL_PORT_RANGE_END = 65535 := rfl
  have hc' := hc
  have hp' := hp
  unfold portInRange at hc' hp'
  rw [hS, hE] at hc' hp'
  have hmod := Nat.mod_lt (p - 49152 + 16384 - (c - 49152)) (show 0 < 16384 by omega)
  refine ⟨if (p - 49152 + 16384 - (c - 49152)) % 16384 = 0 then 16384
    else (p - 49152 + 16384 - (c - 49152)) % 16384, ?_, ?_, ?_⟩
  · split <;> omega
  · split <;> omega
  · rw [iterAdv_formula _ c hc]
    split
    · next h0 => omega
    · next h0 => omega

theorem tcp_new_port_loop_all_occupied (ports : List Nat) :
    ∀ (fuel c n : Nat), portInRange c →
      (∀ p, portInRange p → p ∈ ports) →
      n + fuel = 16384 →
      (tcp_new_port_loop ports c n fuel).1 = 0 := by
  intro fuel
  induction fuel with
  | zero => intro c n hc hocc hn; rfl
  | succ fuel ih =>
    intro c n hc hocc hn
    have hc' := advancePort_inRange hc
    have hcont : ports.contains (advancePort c) = true :=
      contains_eq_true_iff.mpr (hocc _ hc')
    have hrange : TCP_LOCAL_PORT_RANGE_END - TCP_LOCAL_PORT_RANGE_START = 16383 := rfl
    simp only [tcp_new_port_loop, hcont, if_true, hrange]
    split
    · rfl
    · next hlt => exact ih (advancePort c) (n + 1) hc' hocc (by omega)

theorem tcp_new_port_loop_success (ports : List Nat) :
    ∀ (fuel c n : Nat), portInRange c →
      (∃ k, 1 ≤ k ∧ k ≤ fuel ∧ iterAdv k c ∉ ports) →
      n + fuel = 16384 →
      (tcp_new_port_loop ports c n fuel).1 ≠ 0 ∧
      portInRange (tcp_new_port_loop ports c n fuel).1 ∧
      (tcp_new_port_loop ports c n fuel).1 ∉ ports := by
  intro fuel
  induction fuel with
  | zero =>
    rintro c n hc ⟨k, hk1, hk0, _⟩ hn
    omega
  | succ fuel ih =>
    rintro c n hc ⟨k, hk1, hkf, hkfree⟩ hn
    have hc' := advancePort_inRange hc
    have hS : TCP_LOCAL_PORT_RANGE_START = 49152 := rfl
    have hrange : TCP_LOCAL_PORT_RANGE_END - TCP_LOCAL_PORT_RANGE_START = 16383 := rfl
    by_cases hmem : advancePort c ∈ ports
    · have hcont : ports.contains (advancePort c) = true := contains_eq_true_iff.mpr hmem
      have hk2 : 2 ≤ k := by
        rcases Nat.lt_or_ge k 2 with h | h
        · exfalso
          have hk1' : k = 1 := by omega
          rw [hk1'] at hkfree
          exact hkfree hmem
        · exact h
      have hnb : ¬(n + 1 > 16383) := by omega
      simp only [tcp_new_port_loop, hcont, if_true, hrange]
      rw [if_neg hnb]
      apply ih (advancePort c) (n + 1) hc' ?_ (by omega)
      refine ⟨k - 1, by omega, by omega, ?_⟩
      have hks : k - 1 + 1 = k := by omega
      have : iterAdv (k - 1 + 1) c = iterAdv (k - 1) (advancePort c) := rfl
      rw [hks] at this
      rw [← this]
      exact hkfree
    · have hcont : ports.contains (advancePort c) = false := by
        rw [← Bool.not_eq_true]
        intro hcc
        exact hmem (contains_eq_true_iff.mp hcc)
      simp only [tcp_new_port_loop, hcont, Bool.false_eq_true, if_false]
      refine ⟨?_, hc', hmem⟩
      have := hc'.1
      rw [hS] at this
      omega

/-- C8: `tcp_new_port` returns 0 iff every one of the 16384 ports in
[49152, 65535] is the `local_port` of some PCB on one of the four lists;
otherwise it returns a port in that range held by no PCB on any list.  The
hypothesis is the module invariant that the static cursor `tcp_port` stays
inside the range (it starts at the range start and every update keeps it
there). -/
theorem C8_new_port (g : TcpGlobal) (hcur : portInRange g.tcp_port) :
    ((tcp_new_port g).1 = 0 ↔ ∀ p, portInRange p → p ∈ g.allPorts)
    ∧ ((tcp_new_port g).1 ≠ 0 →
        portInRange (tcp_new_port g).1 ∧ (tcp_new_port g).1 ∉ g.allPorts) := by
  have heq : (tcp_new_port g).1 = (tcp_new_port_loop g.allPorts g.tcp_port 0 16384).1 := rfl
  constructor
  · constructor
    · intro h0 p hp
      by_contra hfree
      obtain ⟨k, hk1, hk2, hkp⟩ := iterAdv_coverage hcur hp
      have hs := tcp_new_port_loop_success g.allPorts 16384 g.tcp_port 0 hcur
        ⟨k, hk1, hk2, by rw [hkp]; exact hfree⟩ rfl
      rw [heq] at h0
      exact hs.1 h0
    · intro hall
      rw [heq]
      exact tcp_new_port_loop_all_occupied g.allPorts 16384 g.tcp_port 0 hcur hall rfl
  · intro hne
    rw [heq] at hne ⊢
    have : ∃ k, 1 ≤ k ∧ k ≤ 16384 ∧ iterAdv k g.tcp_port ∉ g.allPorts := by
      by_contra hno
      push_neg at hno
      have hall : ∀ p, portInRange p → p ∈ g.allPorts := by
        intro p hp
        obtain ⟨k, hk1, hk2, hkp⟩ := iterAdv_coverage hcur hp
        rw [← hkp]
        exact hno k hk1 hk2
      exact hne (tcp_new_port_loop_all_occupied g.allPorts 16384 g.tcp_port 0 hcur hall rfl)
    obtain ⟨k, hk1, hk2, hkfree⟩ := this
    have hs := tcp_new_port_loop_success g.allPorts 16384 g.tcp_port 0 hcur
      ⟨k, hk1, hk2, hkfree⟩ rfl
    exact ⟨hs.2.1, hs.2.2⟩

/-- C8 witness state: empty lists, cursor at the range start. -/
def g8w : TcpGlobal := { pcbs := fun _ => {}, lpcbs := fun _ => {} }

/-- Witness for C8: on the empty state the allocator succeeds with a fresh
in-range port. -/
theorem C8_new_port_witness :
    portInRange (tcp_new_port g8w).1 ∧ (tcp_new_port g8w).1 ∉ g8w.allPorts :=
  (C8_new_port g8w (by decide)).2 (by decide)

/-! ## Claim C2: the dual-stack listen port-in-use return value -/

/-- C2 failing input: listener 0 (LISTEN_CLOS, port 80) asks for a dual
listen while listener 1 already listens on port 80. -/
def g2c : TcpGlobal :=
  { pcbs := fun _ => {}
    lpcbs := fun j =>
      if j = 0 then { state := LISTEN_CLOS, local_port := 80 }
      else { state := LISTEN, local_port := 80 }
    listenl := [1] }

/-- C2: on the duplicate-port input, `tcp_listen_dual_with_backlog`
executes `return NULL` even though its declared return type is `err_t`;
the value handed back is therefore the null pointer, whose numeric value 0
equals `ERR_OK` and is not `ERR_USE` — the code contradicts the documented
contract (`ERR_USE` on address-in-use) inherited from
`tcp_listen_with_backlog`. -/
theorem C2_listen_dual_bug :
    (tcp_listen_dual_with_backlog g2c 0 4).1 = CPtrRet.c_null ∧
    cptr_as_err (tcp_listen_dual_with_backlog g2c 0 4).1 = some 0 ∧
    (0 : Err) = ERR_OK ∧
    cptr_as_err (tcp_listen_dual_with_backlog g2c 0 4).1 ≠ some ERR_USE := by decide

/-! ## Claim C10: bind with port 0 -/

@[simp] theorem tcp_new_port_snd_bound (g : TcpGlobal) :
    (tcp_new_port g).2.bound = g.bound := rfl

@[simp] theorem tcp_new_port_snd_active (g : TcpGlobal) :
    (tcp_new_port g).2.active = g.active := rfl

@[simp] theorem tcp_new_port_snd_pcbs (g : TcpGlobal) :
    (tcp_new_port g).2.pcbs = g.pcbs := rfl

@[simp] theorem tcp_new_port_snd_lpcbs (g : TcpGlobal) :
    (tcp_new_port g).2.lpcbs = g.lpcbs := rfl

theorem tcp_bind_commit_bound (g : TcpGlobal) (r : PcbRef) (ip : IpAddr) (port : Nat) :
    (tcp_bind_commit g r ip port).bound = r :: g.bound := by
  cases r <;> by_cases ha : ip.is_any = false <;>
    simp [tcp_bind_commit, ha]

theorem tcp_bind_commit_refPort (g : TcpGlobal) (r : PcbRef) (ip : IpAddr) (port : Nat) :
    (tcp_bind_commit g r ip port).refPort r = port := by
  cases r <;> by_cases ha : ip.is_any = false <;>
    simp [tcp_bind_commit, TcpGlobal.refPort, ha]

/-- C10: a `tcp_bind(pcb, ipaddr, 0)` call with matching IP version skips
the port-in-use scan entirely: it returns `ERR_BUF` exactly when
`tcp_new_port` fails, never `ERR_USE`, and on success returns `ERR_OK`
having prepended the PCB to the bound list carrying the freshly allocated
port. -/
theorem C10_bind_port_zero (g : TcpGlobal) (r : PcbRef) (ipaddr : IpAddr)
    (hver : (g.refIp r).is_v6 = ipaddr.is_v6) :
    ((tcp_bind g r ipaddr 0).1 = ERR_BUF ↔ (tcp_new_port g).1 = 0)
    ∧ (tcp_bind g r ipaddr 0).1 ≠ ERR_USE
    ∧ ((tcp_new_port g).1 = 0 →
        (tcp_bind g r ipaddr 0).1 = ERR_BUF ∧ (tcp_bind g r ipaddr 0).2.bound = g.bound)
    ∧ ((tcp_new_port g).1 ≠ 0 →
        (tcp_bind g r ipaddr 0).1 = ERR_OK ∧
        (tcp_bind g r ipaddr 0).2.bound = r :: g.bound ∧
        (tcp_bind g r ipaddr 0).2.refPort r = (tcp_new_port g).1) := by
  have hv : ¬((g.refIp r).is_v6 ≠ ipaddr.is_v6) := by rw [hver]; simp
  by_cases h0 : (tcp_new_port g).1 = 0
  · have hrw : tcp_bind g r ipaddr 0 = (ERR_BUF, (tcp_new_port g).2) := by
      simp [tcp_bind, hv, h0]
    rw [hrw]
    exact ⟨⟨fun _ => h0, fun _ => rfl⟩, by show ERR_BUF ≠ ERR_USE; decide,
      fun _ => ⟨rfl, rfl⟩, fun hne => absurd h0 hne⟩
  · have hrw : tcp_bind g r ipaddr 0 =
        (ERR_OK, tcp_bind_commit (tcp_new_port g).2 r ipaddr (tcp_new_port g).1) := by
      simp [tcp_bind, hv, h0]
    rw [hrw]
    refine ⟨⟨fun he => absurd he (by show ERR_OK ≠ ERR_BUF; decide), fun he => absurd he h0⟩,
      by show ERR_OK ≠ ERR_USE; decide, fun he => absurd he h0, fun _ => ⟨rfl, ?_, ?_⟩⟩
    · rw [tcp_bind_commit_bound]
      simp
    · rw [tcp_bind_commit_refPort]

/-- Witness for C10: binding a fresh connection PCB with port 0 on the
empty state. -/
theorem C10_bind_port_zero_witness :
    (tcp_bind g8w (.conn 0) {} 0).1 = ERR_OK ∧
    (tcp_bind g8w (.conn 0) {} 0).2.bound = PcbRef.conn 0 :: g8w.bound ∧
    (tcp_bind g8w (.conn 0) {} 0).2.refPort (.conn 0) = (tcp_new_port g8w).1 :=
  (C10_bind_port_zero g8w (.conn 0) {} (by decide)).2.2.2 (by decide)

/-! ## Claim C4: connect and the route-failure path -/

/-- The intermediate state of `tcp_connect` after the remote address and
the routed local address have been stored (proof-structuring
abbreviation). -/
def tcp_connect_g2 (g : TcpGlobal) (i : Nat) (ipaddr : IpAddr) (port : Nat)
    (lip : IpAddr) : TcpGlobal :=
  (g.setPcb i { g.pcbs i with remote_ip := ipaddr, remote_port := port }).setPcb i
    { (g.setPcb i { g.pcbs i with remote_ip := ipaddr, remote_port := port }).pcbs i with
      local_ip := lip }

@[simp] theorem tcp_connect_g2_active (g : TcpGlobal) (i : Nat) (ipaddr : IpAddr)
    (port : Nat) (lip : IpAddr) :
    (tcp_connect_g2 g i ipaddr port lip).active = g.active := rfl

@[simp] theorem tcp_connect_g2_bound (g : TcpGlobal) (i : Nat) (ipaddr : IpAddr)
    (port : Nat) (lip : IpAddr) :
    (tcp_connect_g2 g i ipaddr port lip).bound = g.bound := rfl

@[simp] theorem tcp_connect_g2_listenl (g : TcpGlobal) (i : Nat) (ipaddr : IpAddr)
    (port : Nat) (lip : IpAddr) :
    (tcp_connect_g2 g i ipaddr port lip).listenl = g.listenl := rfl

@[simp] theorem tcp_connect_g2_tw (g : TcpGlobal) (i : Nat) (ipaddr : IpAddr)
    (port : Nat) (lip : IpAddr) :
    (tcp_connect_g2 g i ipaddr port lip).tw = g.tw := rfl

@[simp] theorem tcp_connect_g2_iter (g : TcpGlobal) (i : Nat) (ipaddr : IpAddr)
    (port : Nat) (lip : IpAddr) :
    (tcp_connect_g2 g i ipaddr port lip).iter = g.iter := rfl

@[simp] theorem tcp_connect_g2_state (g : TcpGlobal) (i : Nat) (ipaddr : IpAddr)
    (port : Nat) (lip : IpAddr) :
    ((tcp_connect_g2 g i ipaddr port lip).pcbs i).state = (g.pcbs i).state := by
  simp [tcp_connect_g2]

@[simp] theorem tcp_connect_g2_local_port (g : TcpGlobal) (i : Nat) (ipaddr : IpAddr)
    (port : Nat) (lip : IpAddr) :
    ((tcp_connect_g2 g i ipaddr port lip).pcbs i).local_port = (g.pcbs i).local_port := by
  simp [tcp_connect_g2]

theorem tcp_connect_rest_fail (env : TcpEnv) (g : TcpGlobal) (i : Nat) (olp : Nat)
    (h : env.enqueue_flags i ≠ ERR_OK) :
    (tcp_connect_rest env g i olp).1 = env.enqueue_flags i ∧
    ((tcp_connect_rest env g i olp).2.pcbs i).state = (g.pcbs i).state ∧
    (tcp_connect_rest env g i olp).2.active = g.active ∧
    (tcp_connect_rest env g i olp).2.bound = g.bound ∧
    (tcp_connect_rest env g i olp).2.listenl = g.listenl ∧
    (tcp_connect_rest env g i olp).2.tw = g.tw := by
  simp [tcp_connect_rest, tcp_next_iss, h]

theorem tcp_connect_rest_ok (env : TcpEnv) (g : TcpGlobal) (i : Nat) (olp : Nat)
    (h : env.enqueue_flags i = ERR_OK) :
    (tcp_connect_rest env g i olp).1 = ERR_OK ∧
    ((tcp_connect_rest env g i olp).2.pcbs i).state = SYN_SENT ∧
    (tcp_connect_rest env g i olp).2.active = i :: g.active ∧
    (tcp_connect_rest env g i olp).2.bound =
      (if olp ≠ 0 then tcp_rmv g.bound (.conn i) else g.bound) ∧
    (tcp_connect_rest env g i olp).2.listenl = g.listenl ∧
    (tcp_connect_rest env g i olp).2.tw = g.tw ∧
    (tcp_connect_rest env g i olp).2.iter = tcp_iter_will_prepend g.iter i g.active := by
  by_cases holp : olp ≠ 0 <;> simp [tcp_connect_rest, tcp_next_iss, h, holp]

theorem tcp_connect_route_none (env : TcpEnv) (g : TcpGlobal) (i : Nat) (ipaddr : IpAddr)
    (port : Nat)
    (hver : (g.pcbs i).local_ip.is_v6 = ipaddr.is_v6)
    (hany : (g.pcbs i).local_ip.is_any = true)
    (hr : env.route = none) :
    tcp_connect env g i ipaddr port =
      (ERR_RTE, g.setPcb i { g.pcbs i with remote_ip := ipaddr, remote_port := port }) := by
  have hv : ¬((g.pcbs i).local_ip.is_v6 ≠ ipaddr.is_v6) := by rw [hver]; simp
  simp [tcp_connect, hv, hany, hr]

theorem tcp_connect_route_some (env : TcpEnv) (g : TcpGlobal) (i : Nat) (ipaddr : IpAddr)
    (port : Nat) (lip : IpAddr)
    (hver : (g.pcbs i).local_ip.is_v6 = ipaddr.is_v6)
    (hany : (g.pcbs i).local_ip.is_any = true)
    (hr : env.route = some lip) :
    tcp_connect env g i ipaddr port =
      (if (g.pcbs i).local_port = 0 then
        (if (tcp_new_port (tcp_connect_g2 g i ipaddr port lip)).1 = 0 then
          (ERR_BUF, (tcp_new_port (tcp_connect_g2 g i ipaddr port lip)).2)
        else
          tcp_connect_rest env
            ((tcp_new_port (tcp_connect_g2 g i ipaddr port lip)).2.setPcb i
              { (tcp_new_port (tcp_connect_g2 g i ipaddr port lip)).2.pcbs i with
                local_port := (tcp_new_port (tcp_connect_g2 g i ipaddr port lip)).1 }) i
            (g.pcbs i).local_port)
      else tcp_connect_rest env (tcp_connect_g2 g i ipaddr port lip) i
        (g.pcbs i).local_port) := by
  have hv : ¬((g.pcbs i).local_ip.is_v6 ≠ ipaddr.is_v6) := by rw [hver]; simp
  simp [tcp_connect, hv, hany, hr, tcp_connect_g2]

@[simp] theorem tcp_new_port_snd_iter (g : TcpGlobal) :
    (tcp_new_port g).2.iter = g.iter := rfl

@[simp] theorem tcp_new_port_snd_listenl (g : TcpGlobal) :
    (tcp_new_port g).2.listenl = g.listenl := rfl

@[simp] theorem tcp_new_port_snd_tw (g : TcpGlobal) :
    (tcp_new_port g).2.tw = g.tw := rfl

theorem tcp_connect_rest_fail_props (env : TcpEnv) (gq g : TcpGlobal) (i olp : Nat)
    (henq : env.enqueue_flags i ≠ ERR_OK)
    (hs : (gq.pcbs i).state = CLOSED) (ha : gq.active = g.active)
    (hb : gq.bound = g.bound) :
    ((tcp_connect_rest env gq i olp).2.pcbs i).state = CLOSED ∧
    (tcp_connect_rest env gq i olp).2.active = g.active ∧
    (tcp_connect_rest env gq i olp).2.bound = g.bound := by
  have hfl := tcp_connect_rest_fail env gq i olp henq
  exact ⟨by rw [hfl.2.1, hs], by rw [hfl.2.2.1, ha], by rw [hfl.2.2.2.1, hb]⟩

theorem tcp_connect_rest_ok_props (env : TcpEnv) (gq g : TcpGlobal) (i olp : Nat)
    (henq : env.enqueue_flags i = ERR_OK)
    (ha : gq.active = g.active) (hb : gq.bound = g.bound) (hi : gq.iter = g.iter) :
    ((tcp_connect_rest env gq i olp).2.pcbs i).state = SYN_SENT ∧
    (tcp_connect_rest env gq i olp).2.active = i :: g.active ∧
    (tcp_connect_rest env gq i olp).2.bound =
      (if olp ≠ 0 then tcp_rmv g.bound (.conn i) else g.bound) ∧
    (tcp_connect_rest env gq i olp).2.iter = tcp_iter_will_prepend g.iter i g.active := by
  have hko := tcp_connect_rest_ok env gq i olp henq
  exact ⟨hko.2.1, by rw [hko.2.2.1, ha], by rw [hko.2.2.2.1, hb],
    by rw [hko.2.2.2.2.2.2, hi, ha]⟩

/-- C4 (amended): for a `tcp_connect` call on a CLOSED PCB with matching
IP version and wildcard local IP: when the route lookup yields no netif or
no local address the call returns `ERR_RTE`, the PCB's state is still
CLOSED, and all four lists are unchanged — so a PCB that was on no list is
still on no list, but a PCB that was bound (wildcard IP with nonzero
port) remains on the bound list; whenever the call returns anything other
than `ERR_OK` the state is still CLOSED and the active and bound lists are
unchanged; the transition to SYN_SENT, the removal from the bound list,
the iterator will-prepend notification and the prepend to the active list
happen exactly when enqueuing the SYN succeeds (`ERR_OK`). -/
theorem C4_connect (env : TcpEnv) (g : TcpGlobal) (i : Nat) (ipaddr : IpAddr) (port : Nat)
    (hst : (g.pcbs i).state = CLOSED)
    (hver : (g.pcbs i).local_ip.is_v6 = ipaddr.is_v6)
    (hany : (g.pcbs i).local_ip.is_any = true) :
    (env.route = none →
      (tcp_connect env g i ipaddr port).1 = ERR_RTE ∧
      ((tcp_connect env g i ipaddr port).2.pcbs i).state = CLOSED ∧
      (tcp_connect env g i ipaddr port).2.active = g.active ∧
      (tcp_connect env g i ipaddr port).2.bound = g.bound ∧
      (tcp_connect env g i ipaddr port).2.listenl = g.listenl ∧
      (tcp_connect env g i ipaddr port).2.tw = g.tw)
    ∧ ((tcp_connect env g i ipaddr port).1 ≠ ERR_OK →
        ((tcp_connect env g i ipaddr port).2.pcbs i).state = CLOSED ∧
        (tcp_connect env g i ipaddr port).2.active = g.active ∧
        (tcp_connect env g i ipaddr port).2.bound = g.bound)
    ∧ ((tcp_connect env g i ipaddr port).1 = ERR_OK →
        ((tcp_connect env g i ipaddr port).2.pcbs i).state = SYN_SENT ∧
        (tcp_connect env g i ipaddr port).2.active = i :: g.active ∧
        (tcp_connect env g i ipaddr port).2.bound =
          (if (g.pcbs i).local_port ≠ 0 then tcp_rmv g.bound (.conn i) else g.bound) ∧
        (tcp_connect env g i ipaddr port).2.iter =
          tcp_iter_will_prepend g.iter i g.active) := by
  cases hr : env.route with
  | none =>
    rw [tcp_connect_route_none env g i ipaddr port hver hany hr]
    exact ⟨fun _ => ⟨rfl, by simp [hst], rfl, rfl, rfl, rfl⟩,
      fun _ => ⟨by simp [hst], rfl, rfl⟩,
      fun he => absurd he (by show ERR_RTE ≠ ERR_OK; decide)⟩
  | some lip =>
    rw [tcp_connect_route_some env g i ipaddr port lip hver hany hr]
    refine ⟨fun hc => absurd hc (by simp), ?_, ?_⟩ <;>
      by_cases holp : (g.pcbs i).local_port = 0
    · rw [if_pos holp]
      by_cases hnp : (tcp_new_port (tcp_connect_g2 g i ipaddr port lip)).1 = 0
      · rw [if_pos hnp]
        exact fun _ => ⟨by simp [hst], by simp, by simp⟩
      · rw [if_neg hnp]
        intro hne
        by_cases henq : env.enqueue_flags i = ERR_OK
        · rw [(tcp_connect_rest_ok env _ i _ henq).1] at hne
          exact absurd rfl hne
        · exact tcp_connect_rest_fail_props env _ g i _ henq (by simp [hst]) (by simp) (by simp)
    · rw [if_neg holp]
      intro hne
      by_cases henq : env.enqueue_flags i = ERR_OK
      · rw [(tcp_connect_rest_ok env _ i _ henq).1] at hne
        exact absurd rfl hne
      · exact tcp_connect_rest_fail_props env _ g i _ henq (by simp [hst]) (by simp) (by simp)
    · rw [if_pos holp]
      by_cases hnp : (tcp_new_port (tcp_connect_g2 g i ipaddr port lip)).1 = 0
      · rw [if_pos hnp]
        exact fun he => absurd he (by show ERR_BUF ≠ ERR_OK; decide)
      · rw [if_neg hnp]
        intro hok
        by_cases henq : env.enqueue_flags i = ERR_OK
        · exact tcp_connect_rest_ok_props env _ g i _ henq (by simp) (by simp) (by simp)
        · rw [(tcp_connect_rest_fail env _ i _ henq).1] at hok
          exact absurd hok henq
    · rw [if_neg holp]
      intro hok
      by_cases henq : env.enqueue_flags i = ERR_OK
      · exact tcp_connect_rest_ok_props env _ g i _ henq (by simp) (by simp) (by simp)
      · rw [(tcp_connect_rest_fail env _ i _ henq).1] at hok
        exact absurd hok henq

/-- C4 counterexample environment: route lookup fails. -/
def env4 : TcpEnv := { route := none }

/-- C4 counterexample state: PCB 3 is CLOSED, previously bound to the
wildcard address with port 5000, and sits on the bound list. -/
def g4c : TcpGlobal :=
  { pcbs := fun _ =>
      { state := CLOSED, local_port := 5000, local_ip := { is_any := true } }
    lpcbs := fun _ => {}
    bound := [.conn 3] }

/-- C4 counterexample: `tcp_connect` on the bound CLOSED PCB 3 with a
failing route returns `ERR_RTE` and leaves the PCB CLOSED, but the PCB is
still on the bound list — contrary to the claim that it is on none of the
four lists. -/
theorem C4_connect_counterexample :
    (tcp_connect env4 g4c 3 { addr := 7 } 80).1 = ERR_RTE ∧
    ((tcp_connect env4 g4c 3 { addr := 7 } 80).2.pcbs 3).state = CLOSED ∧
    PcbRef.conn 3 ∈ (tcp_connect env4 g4c 3 { addr := 7 } 80).2.bound := by decide

/-- C4 witness state: a fresh unbound CLOSED PCB with wildcard local IP,
on no list. -/
def g4w : TcpGlobal :=
  { pcbs := fun _ => { state := CLOSED, local_ip := { is_any := true } }
    lpcbs := fun _ => {} }

/-- Witness for C4: a fresh unbound CLOSED PCB, failing route. -/
theorem C4_connect_witness :
    (tcp_connect env4 g4w 0 { addr := 7 } 80).1 = ERR_RTE ∧
    ((tcp_connect env4 g4w 0 { addr := 7 } 80).2.pcbs 0).state = CLOSED ∧
    (tcp_connect env4 g4w 0 { addr := 7 } 80).2.active = g4w.active ∧
    (tcp_connect env4 g4w 0 { addr := 7 } 80).2.bound = g4w.bound ∧
    (tcp_connect env4 g4w 0 { addr := 7 } 80).2.listenl = g4w.listenl ∧
    (tcp_connect env4 g4w 0 { addr := 7 } 80).2.tw = g4w.tw :=
  (C4_connect env4 g4w 0 { addr := 7 } 80 (by decide) (by decide) (by decide)).1 rfl

/-! ## Claim C6: the delayed-ACK flush of the fast timer -/

theorem tcp_fasttmr_loop_cons_skip (env : TcpEnv) (ctr x : Nat) (rest : List Nat)
    (g : TcpGlobal) (h : ¬((g.pcbs x).last_timer ≠ ctr)) :
    tcp_fasttmr_loop env ctr (x :: rest) g = tcp_fasttmr_loop env ctr rest g := by
  simp only [tcp_fasttmr_loop]
  rw [if_neg h]

theorem tcp_fasttmr_loop_cons_ack (env : TcpEnv) (ctr x : Nat) (rest : List Nat)
    (g : TcpGlobal) (h : (g.pcbs x).last_timer ≠ ctr) (ha : (g.pcbs x).ack_delay = true) :
    tcp_fasttmr_loop env ctr (x :: rest) g =
      ((tcp_fasttmr_loop env ctr rest
          (g.setPcb x { g.pcbs x with last_timer := ctr, ack_now := false, ack_delay := false })).1,
        x :: (tcp_fasttmr_loop env ctr rest
          (g.setPcb x { g.pcbs x with last_timer := ctr, ack_now := false, ack_delay := false })).2) := by
  simp only [tcp_fasttmr_loop]
  rw [if_pos h]
  split
  · rfl
  · next hcond => exact absurd (show (g.pcbs x).ack_delay = true from ha) hcond

theorem tcp_fasttmr_loop_cons_noack (env : TcpEnv) (ctr x : Nat) (rest : List Nat)
    (g : TcpGlobal) (h : (g.pcbs x).last_timer ≠ ctr) (ha : (g.pcbs x).ack_delay = false) :
    tcp_fasttmr_loop env ctr (x :: rest) g =
      tcp_fasttmr_loop env ctr rest (g.setPcb x { g.pcbs x with last_timer := ctr }) := by
  simp only [tcp_fasttmr_loop]
  rw [if_pos h]
  split
  · next hcond =>
    exact absurd (show (g.pcbs x).ack_delay = true from hcond) (by simp [ha])
  · rfl

theorem tcp_fasttmr_loop_active (env : TcpEnv) (ctr : Nat) (l : List Nat) :
    ∀ g, (tcp_fasttmr_loop env ctr l g).1.active = g.active := by
  induction l with
  | nil => intro g; rfl
  | cons x rest ih =>
    intro g
    by_cases hlt : (g.pcbs x).last_timer ≠ ctr
    · by_cases had : (g.pcbs x).ack_delay = true
      · rw [tcp_fasttmr_loop_cons_ack env ctr x rest g hlt had]
        show (tcp_fasttmr_loop env ctr rest _).1.active = _
        rw [ih]
        simp
      · rw [tcp_fasttmr_loop_cons_noack env ctr x rest g hlt (by simpa using had), ih]
        simp
    · rw [tcp_fasttmr_loop_cons_skip env ctr x rest g hlt, ih]

theorem tcp_fasttmr_loop_timer_ctr (env : TcpEnv) (ctr : Nat) (l : List Nat) :
    ∀ g, (tcp_fasttmr_loop env ctr l g).1.timer_ctr = g.timer_ctr := by
  induction l with
  | nil => intro g; rfl
  | cons x rest ih =>
    intro g
    by_cases hlt : (g.pcbs x).last_timer ≠ ctr
    · by_cases had : (g.pcbs x).ack_delay = true
      · rw [tcp_fasttmr_loop_cons_ack env ctr x rest g hlt had]
        show (tcp_fasttmr_loop env ctr rest _).1.timer_ctr = _
        rw [ih]
        simp
      · rw [tcp_fasttmr_loop_cons_noack env ctr x rest g hlt (by simpa using had), ih]
        simp
    · rw [tcp_fasttmr_loop_cons_skip env ctr x rest g hlt, ih]

theorem tcp_fasttmr_loop_skip (env : TcpEnv) (ctr : Nat) (l : List Nat) :
    ∀ g i, (g.pcbs i).last_timer = ctr →
      (tcp_fasttmr_loop env ctr l g).1.pcbs i = g.pcbs i ∧
      i ∉ (tcp_fasttmr_loop env ctr l g).2 := by
  induction l with
  | nil => intro g i h; exact ⟨rfl, by simp [tcp_fasttmr_loop]⟩
  | cons x rest ih =>
    intro g i h
    by_cases hx : x = i
    · subst hx
      rw [tcp_fasttmr_loop_cons_skip env ctr x rest g (by simp [h])]
      exact ih g x h
    · have hne : i ≠ x := fun hh => hx hh.symm
      by_cases hlt : (g.pcbs x).last_timer ≠ ctr
      · by_cases had : (g.pcbs x).ack_delay = true
        · rw [tcp_fasttmr_loop_cons_ack env ctr x rest g hlt had]
          have hkey := ih
            (g.setPcb x
              { g.pcbs x with last_timer := ctr, ack_now := false, ack_delay := false }) i
            (by simp [hne, h])
          refine ⟨hkey.1.trans (by simp [hne]), ?_⟩
          simp only [List.mem_cons]
          rintro (rfl | hm)
          · exact hx rfl
          · exact hkey.2 hm
        · rw [tcp_fasttmr_loop_cons_noack env ctr x rest g hlt (by simpa using had)]
          have hkey := ih (g.setPcb x { g.pcbs x with last_timer := ctr }) i
            (by simp [hne, h])
          exact ⟨hkey.1.trans (by simp [hne]), hkey.2⟩
      · rw [tcp_fasttmr_loop_cons_skip env ctr x rest g hlt]
        exact ih g i h

theorem tcp_fasttmr_loop_hit (env : TcpEnv) (ctr : Nat) (l : List Nat) :
    ∀ g i, i ∈ l → (g.pcbs i).last_timer ≠ ctr → (g.pcbs i).ack_delay = true →
      (tcp_fasttmr_loop env ctr l g).1.pcbs i =
        { g.pcbs i with last_timer := ctr, ack_now := false, ack_delay := false } ∧
      i ∈ (tcp_fasttmr_loop env ctr l g).2 := by
  induction l with
  | nil => intro g i hmem; cases hmem
  | cons x rest ih =>
    intro g i hmem hlt had
    by_cases hx : x = i
    · subst hx
      rw [tcp_fasttmr_loop_cons_ack env ctr x rest g hlt had]
      have hkey := tcp_fasttmr_loop_skip env ctr rest
        (g.setPcb x { g.pcbs x with last_timer := ctr, ack_now := false, ack_delay := false })
        x (by simp)
      exact ⟨hkey.1.trans (by simp), List.mem_cons_self x _⟩
    · have hne : i ≠ x := fun hh => hx hh.symm
      have hmem' : i ∈ rest := by
        rcases List.mem_cons.mp hmem with rfl | hm
        · exact absurd rfl hx
        · exact hm
      by_cases hlt2 : (g.pcbs x).last_timer ≠ ctr
      · by_cases had2 : (g.pcbs x).ack_delay = true
        · rw [tcp_fasttmr_loop_cons_ack env ctr x rest g hlt2 had2]
          have hkey := ih
            (g.setPcb x
              { g.pcbs x with last_timer := ctr, ack_now := false, ack_delay := false }) i
            hmem' (by simpa [hne] using hlt) (by simpa [hne] using had)
          exact ⟨hkey.1.trans (by simp [hne]), List.mem_cons_of_mem x hkey.2⟩
        · rw [tcp_fasttmr_loop_cons_noack env ctr x rest g hlt2 (by simpa using had2)]
          have hkey := ih (g.setPcb x { g.pcbs x with last_timer := ctr }) i
            hmem' (by simpa [hne] using hlt) (by simpa [hne] using had)
          exact ⟨hkey.1.trans (by simp [hne]), hkey.2⟩
      · rw [tcp_fasttmr_loop_cons_skip env ctr x rest g hlt2]
        exact ih g i hmem' hlt had

theorem tcp_fasttmr_loop_noack (env : TcpEnv) (ctr : Nat) (l : List Nat) :
    ∀ g i, i ∈ l → (g.pcbs i).last_timer ≠ ctr → (g.pcbs i).ack_delay = false →
      (tcp_fasttmr_loop env ctr l g).1.pcbs i = { g.pcbs i with last_timer := ctr } ∧
      i ∉ (tcp_fasttmr_loop env ctr l g).2 := by
  induction l with
  | nil => intro g i hmem; cases hmem
  | cons x rest ih =>
    intro g i hmem hlt had
    by_cases hx : x = i
    · subst hx
      rw [tcp_fasttmr_loop_cons_noack env ctr x rest g hlt had]
      have hkey := tcp_fasttmr_loop_skip env ctr rest
        (g.setPcb x { g.pcbs x with last_timer := ctr }) x (by simp)
      exact ⟨hkey.1.trans (by simp), hkey.2⟩
    · have hne : i ≠ x := fun hh => hx hh.symm
      have hmem' : i ∈ rest := by
        rcases List.mem_cons.mp hmem with rfl | hm
        · exact absurd rfl hx
        · exact hm
      by_cases hlt2 : (g.pcbs x).last_timer ≠ ctr
      · by_cases had2 : (g.pcbs x).ack_delay = true
        · rw [tcp_fasttmr_loop_cons_ack env ctr x rest g hlt2 had2]
          have hkey := ih
            (g.setPcb x
              { g.pcbs x with last_timer := ctr, ack_now := false, ack_delay := false }) i
            hmem' (by simpa [hne] using hlt) (by simpa [hne] using had)
          refine ⟨hkey.1.trans (by simp [hne]), ?_⟩
          simp only [List.mem_cons]
          rintro (rfl | hm)
          · exact hx rfl
          · exact hkey.2 hm
        · rw [tcp_fasttmr_loop_cons_noack env ctr x rest g hlt2 (by simpa using had2)]
          have hkey := ih (g.setPcb x { g.pcbs x with last_timer := ctr }) i
            hmem' (by simpa [hne] using hlt) (by simpa [hne] using had)
          exact ⟨hkey.1.trans (by simp [hne]), hkey.2⟩
      · rw [tcp_fasttmr_loop_cons_skip env ctr x rest g hlt2]
        exact ih g i hmem' hlt had

theorem u8_add1_ne (c : Nat) : u8_add1 c ≠ u8_add1 (u8_add1 c) := by
  unfold u8_add1
  omega

/-- C6: for a PCB on the active list with `TF_ACK_DELAY` set that has not
yet been processed in the current tick (`last_timer` differs from the
freshly incremented `tcp_timer_ctr`), one `tcp_fasttmr` run transmits an
immediate ACK for it and clears both `TF_ACK_DELAY` and `TF_ACK_NOW` (its
only other field change being the `last_timer` stamp); an immediately
following `tcp_fasttmr` run transmits nothing for that PCB and changes
nothing but its `last_timer` stamp, so its flags are unchanged. -/
theorem C6_fasttmr (env : TcpEnv) (g : TcpGlobal) (i : Nat)
    (hmem : i ∈ g.active)
    (hlt : (g.pcbs i).last_timer ≠ u8_add1 g.timer_ctr)
    (had : (g.pcbs i).ack_delay = true) :
    ((tcp_fasttmr env g).1.pcbs i =
      { g.pcbs i with last_timer := u8_add1 g.timer_ctr, ack_now := false, ack_delay := false }) ∧
    i ∈ (tcp_fasttmr env g).2 ∧
    ((tcp_fasttmr env (tcp_fasttmr env g).1).1.pcbs i =
      { (tcp_fasttmr env g).1.pcbs i with last_timer := u8_add1 (tcp_fasttmr env g).1.timer_ctr }) ∧
    i ∉ (tcp_fasttmr env (tcp_fasttmr env g).1).2 := by
  have h1 := tcp_fasttmr_loop_hit env (u8_add1 g.timer_ctr) g.active
    { g with timer_ctr := u8_add1 g.timer_ctr } i hmem hlt had
  have hrun1 : (tcp_fasttmr env g).1.pcbs i =
      { g.pcbs i with last_timer := u8_add1 g.timer_ctr, ack_now := false, ack_delay := false } := h1.1
  have hctr1 : (tcp_fasttmr env g).1.timer_ctr = u8_add1 g.timer_ctr := by
    show (tcp_fasttmr_loop env _ _ _).1.timer_ctr = _
    rw [tcp_fasttmr_loop_timer_ctr]
  have hact1 : (tcp_fasttmr env g).1.active = g.active := by
    show (tcp_fasttmr_loop env _ _ _).1.active = _
    rw [tcp_fasttmr_loop_active]
  have hmem2 : i ∈ (tcp_fasttmr env g).1.active := by rw [hact1]; exact hmem
  have hlt2 : ((tcp_fasttmr env g).1.pcbs i).last_timer ≠
      u8_add1 (tcp_fasttmr env g).1.timer_ctr := by
    rw [hrun1, hctr1]
    exact u8_add1_ne g.timer_ctr
  have had2 : ((tcp_fasttmr env g).1.pcbs i).ack_delay = false := by rw [hrun1]
  have h2 := tcp_fasttmr_loop_noack env (u8_add1 (tcp_fasttmr env g).1.timer_ctr)
    (tcp_fasttmr env g).1.active
    { (tcp_fasttmr env g).1 with timer_ctr := u8_add1 (tcp_fasttmr env g).1.timer_ctr } i
    hmem2 hlt2 had2
  exact ⟨hrun1, h1.2, h2.1, h2.2⟩

/-- C6 witness state: PCB 0 active with a pending delayed ACK. -/
def g6w : TcpGlobal :=
  { pcbs := fun _ => { state := ESTABLISHED, ack_delay := true, last_timer := 5 }
    lpcbs := fun _ => {}
    active := [0]
    timer_ctr := 0 }

/-- Witness for C6 at `g6w`. -/
theorem C6_fasttmr_witness :
    ((tcp_fasttmr {} g6w).1.pcbs 0 =
      { g6w.pcbs 0 with last_timer := u8_add1 g6w.timer_ctr, ack_now := false, ack_delay := false }) ∧
    0 ∈ (tcp_fasttmr {} g6w).2 ∧
    ((tcp_fasttmr {} (tcp_fasttmr {} g6w).1).1.pcbs 0 =
      { (tcp_fasttmr {} g6w).1.pcbs 0 with last_timer := u8_add1 (tcp_fasttmr {} g6w).1.timer_ctr }) ∧
    0 ∉ (tcp_fasttmr {} (tcp_fasttmr {} g6w).1).2 :=
  C6_fasttmr {} g6w 0 (by decide) (by decide) (by decide)

/-! ## Claim C5: the TIME-WAIT reap instant -/

theorem u32_add1_eq {a : Nat} (h : a + 1 < 2 ^ 32) : u32_add1 a = a + 1 := by
  unfold u32_add1
  omega

theorem u32_sub_eq {a b : Nat} (hab : b ≤ a) (h : a < 2 ^ 32) : u32_sub a b = a - b := by
  unfold u32_sub
  omega

/-- Iterated slow ticks. -/
def tcp_slowtmr_iter (env : TcpEnv) (g : TcpGlobal) : Nat → TcpGlobal
  | 0 => g
  | k + 1 => tcp_slowtmr env (tcp_slowtmr_iter env g k)

/-- With no active PCBs, a slow tick is the counter bump followed by the
tw-list scan. -/
theorem tcp_slowtmr_empty_active (env : TcpEnv) (g : TcpGlobal) (hact : g.active = []) :
    tcp_slowtmr env g =
      tcp_slowtmr_tw_loop (g.tw.length + 1)
        { g with ticks := u32_add1 g.ticks, timer_ctr := u8_add1 g.timer_ctr, iter := tcp_iter_start g.tw } := by
  unfold tcp_slowtmr
  simp [hact, tcp_slowtmr_active_loop, tcp_iter_next, tcp_iter_start]

theorem tcp_slowtmr_tw_single_survive (env : TcpEnv) (g : TcpGlobal) (i : Nat)
    (hact : g.active = []) (htw : g.tw = [i])
    (hcond : ¬(u32_sub (u32_add1 g.ticks) (g.pcbs i).tmr > 2 * TCP_MSL / TCP_SLOW_INTERVAL)) :
    tcp_slowtmr env g =
      { g with ticks := u32_add1 g.ticks, timer_ctr := u8_add1 g.timer_ctr, iter := ⟨none, some i, false⟩ } := by
  rw [tcp_slowtmr_empty_active env g hact, htw]
  simp [tcp_slowtmr_tw_loop, tcp_iter_next, tcp_iter_start, tcp_slowtmr_tw_pcb, succAfter,
    hcond]

theorem tcp_slowtmr_tw_single_free (env : TcpEnv) (g : TcpGlobal) (i : Nat)
    (hact : g.active = []) (htw : g.tw = [i]) (hst : (g.pcbs i).state = TIME_WAIT)
    (hin : g.input_pcb = none)
    (hcond : u32_sub (u32_add1 g.ticks) (g.pcbs i).tmr > 2 * TCP_MSL / TCP_SLOW_INTERVAL) :
    (tcp_slowtmr env g).tw = [] := by
  rw [tcp_slowtmr_empty_active env g hact, htw]
  simp [tcp_slowtmr_tw_loop, tcp_iter_next, tcp_iter_start, tcp_slowtmr_tw_pcb, hcond,
    tcp_pcb_free, hin, hst, tcp_state_is_active, tcp_iter_will_remove, succAfter, tcp_rmv]

theorem tcp_slowtmr_iter_inv (env : TcpEnv) (g0 : TcpGlobal) (i : Nat)
    (hact : g0.active = []) (htw : g0.tw = [i]) (hin : g0.input_pcb = none)
    (hbound : g0.ticks + 2 * TCP_MSL / TCP_SLOW_INTERVAL + 1 < 2 ^ 32)
    (htmr : (g0.pcbs i).tmr = g0.ticks) :
    ∀ k, k ≤ 2 * TCP_MSL / TCP_SLOW_INTERVAL →
      (tcp_slowtmr_iter env g0 k).pcbs = g0.pcbs ∧
      (tcp_slowtmr_iter env g0 k).active = [] ∧
      (tcp_slowtmr_iter env g0 k).tw = [i] ∧
      (tcp_slowtmr_iter env g0 k).input_pcb = none ∧
      (tcp_slowtmr_iter env g0 k).ticks = g0.ticks + k := by
  have hmsl : 2 * TCP_MSL / TCP_SLOW_INTERVAL = 240 := rfl
  intro k
  induction k with
  | zero => intro _; exact ⟨rfl, hact, htw, hin, by simp [tcp_slowtmr_iter]⟩
  | succ k ih =>
    intro hk
    obtain ⟨hp, ha, ht, hi, htk⟩ := ih (by omega)
    have hadd : u32_add1 (tcp_slowtmr_iter env g0 k).ticks = g0.ticks + k + 1 := by
      rw [htk]
      exact u32_add1_eq (by omega)
    have hsub : u32_sub (u32_add1 (tcp_slowtmr_iter env g0 k).ticks)
        ((tcp_slowtmr_iter env g0 k).pcbs i).tmr = k + 1 := by
      rw [hadd, hp, htmr]
      rw [u32_sub_eq (by omega) (by omega)]
      omega
    have hcond : ¬(u32_sub (u32_add1 (tcp_slowtmr_iter env g0 k).ticks)
        ((tcp_slowtmr_iter env g0 k).pcbs i).tmr > 2 * TCP_MSL / TCP_SLOW_INTERVAL) := by
      rw [hsub, hmsl]
      omega
    have hstep := tcp_slowtmr_tw_single_survive env (tcp_slowtmr_iter env g0 k) i ha ht hcond
    have hun : tcp_slowtmr_iter env g0 (k + 1) =
        tcp_slowtmr env (tcp_slowtmr_iter env g0 k) := rfl
    rw [hun, hstep]
    refine ⟨hp, ha, ht, hi, ?_⟩
    show u32_add1 (tcp_slowtmr_iter env g0 k).ticks = g0.ticks + (k + 1)
    rw [hadd]
    omega

/-- C5 counterexample state: PCB 0 enters TIME-WAIT at `tcp_ticks = 0`
(`tmr = 0`), alone on the tw list. -/
def g5c : TcpGlobal :=
  { pcbs := fun _ => { state := TIME_WAIT, tmr := 0 }
    lpcbs := fun _ => {}
    tw := [0]
    ticks := 0 }

/-- C5 counterexample: `⌈2·TCP_MSL / TCP_SLOW_INTERVAL⌉ = 240`, yet after
240 slow ticks the PCB is still on the tw list — it is not freed at the
240th slow tick as the claim states (the code frees it only when the age
strictly exceeds the threshold, i.e. on the 241st tick). -/
theorem C5_time_wait_reap_counterexample :
    (2 * TCP_MSL + TCP_SLOW_INTERVAL - 1) / TCP_SLOW_INTERVAL = 240 ∧
    (tcp_slowtmr_iter {} g5c 240).tw = [0] := by
  refine ⟨by decide, ?_⟩
  exact (tcp_slowtmr_iter_inv {} g5c 0 rfl rfl rfl (by decide) rfl 240 (by decide)).2.2.1

/-- C5 (amended): a PCB that is alone on the tw list with `tmr = tcp_ticks
= T` (and no active PCBs, absent wraparound) is still on the tw list at
every slow tick up to and including the `(2·TCP_MSL / TCP_SLOW_INTERVAL)`-th
after T, and is freed exactly at the `(2·TCP_MSL / TCP_SLOW_INTERVAL + 1)`-th
— one tick later than the claimed `⌈2·TCP_MSL / TCP_SLOW_INTERVAL⌉`,
because `tcp_slowtmr` removes only PCBs whose age strictly exceeds
`2·TCP_MSL / TCP_SLOW_INTERVAL`. -/
theorem C5_time_wait_reap (env : TcpEnv) (g0 : TcpGlobal) (i : Nat)
    (hact : g0.active = []) (htw : g0.tw = [i]) (hin : g0.input_pcb = none)
    (hst : (g0.pcbs i).state = TIME_WAIT)
    (hbound : g0.ticks + 2 * TCP_MSL / TCP_SLOW_INTERVAL + 1 < 2 ^ 32)
    (htmr : (g0.pcbs i).tmr = g0.ticks) :
    (∀ k, k ≤ 2 * TCP_MSL / TCP_SLOW_INTERVAL → (tcp_slowtmr_iter env g0 k).tw = [i]) ∧
    (tcp_slowtmr_iter env g0 (2 * TCP_MSL / TCP_SLOW_INTERVAL + 1)).tw = [] := by
  have hmsl : 2 * TCP_MSL / TCP_SLOW_INTERVAL = 240 := rfl
  constructor
  · intro k hk
    exact (tcp_slowtmr_iter_inv env g0 i hact htw hin hbound htmr k hk).2.2.1
  · obtain ⟨hp, ha, ht, hi, htk⟩ :=
      tcp_slowtmr_iter_inv env g0 i hact htw hin hbound htmr
        (2 * TCP_MSL / TCP_SLOW_INTERVAL) (le_refl _)
    show (tcp_slowtmr env (tcp_slowtmr_iter env g0 (2 * TCP_MSL / TCP_SLOW_INTERVAL))).tw = []
    apply tcp_slowtmr_tw_single_free env _ i ha ht (by rw [hp]; exact hst) hi
    rw [htk, u32_add1_eq (by omega), hp, htmr, u32_sub_eq (by omega) (by omega), hmsl]
    omega

/-- Witness for C5 at `g5c`: still on the list after 240 ticks, freed at
tick 241. -/
theorem C5_time_wait_reap_witness :
    (tcp_slowtmr_iter {} g5c 240).tw = [0] ∧
    (tcp_slowtmr_iter {} g5c (2 * TCP_MSL / TCP_SLOW_INTERVAL + 1)).tw = [] :=
  ⟨(C5_time_wait_reap {} g5c 0 rfl rfl rfl rfl (by decide) rfl).1 240 (by decide),
    (C5_time_wait_reap {} g5c 0 rfl rfl rfl rfl (by decide) rfl).2⟩

/-! ## Claim C9: the TIME-WAIT list invariant -/

/-- The amended per-PCB TIME-WAIT invariant: empty send queue and stopped
retransmission timer.  (The claim's additional `TF_BACKLOGPEND cleared`
conjunct fails: see the counterexample.) -/
def twInv (p : TcpPcb) : Prop :=
  p.sndq = [] ∧ p.sndq_last = none ∧ p.sndq_next = none ∧ p.rtime = -1

instance (p : TcpPcb) : Decidable (twInv p) := by
  unfold twInv
  infer_instance

/-- Every PCB on the tw list satisfies `twInv`. -/
def twListInv (g : TcpGlobal) : Prop := ∀ j ∈ g.tw, twInv (g.pcbs j)

theorem twListInv_setPcb (g : TcpGlobal) (i : Nat) (p : TcpPcb) (h : twListInv g)
    (hp : twInv (g.pcbs i) → twInv p) : twListInv (g.setPcb i p) := by
  intro j hj
  rw [setPcb_tw] at hj
  rw [setPcb_pcbs]
  by_cases hji : j = i
  · rw [if_pos hji]
    exact hp (hji ▸ h j hj)
  · rw [if_neg hji]
    exact h j hj

theorem twListInv_keep (g g' : TcpGlobal) (h : twListInv g)
    (htw : g'.tw = g.tw) (hp : ∀ j ∈ g.tw, g'.pcbs j = g.pcbs j) : twListInv g' := by
  intro j hj
  rw [htw] at hj
  rw [hp j hj]
  exact h j hj

theorem twListInv_sub (g g' : TcpGlobal) (h : twListInv g)
    (htw : ∀ j ∈ g'.tw, j ∈ g.tw) (hp : ∀ j ∈ g.tw, twInv (g'.pcbs j)) :
    twListInv g' := fun j hj => hp j (htw j hj)

theorem twListInv_backlog_delayed (g : TcpGlobal) (i : Nat) (h : twListInv g) :
    twListInv (tcp_backlog_delayed_internal g i) := by
  cases hL : (g.pcbs i).listener with
  | none =>
    simp only [tcp_backlog_delayed_internal, hL]
    exact h
  | some li =>
    by_cases hbp : (g.pcbs i).backlogpend
    · simp only [tcp_backlog_delayed_internal, hL, hbp, if_true]
      exact h
    · simp only [tcp_backlog_delayed_internal, hL, hbp, if_false, Bool.false_eq_true]
      exact twListInv_setPcb _ _ _ (twListInv_keep g _ h rfl (fun _ _ => rfl)) (fun hh => hh)

theorem twListInv_backlog_accepted (g : TcpGlobal) (i : Nat) (h : twListInv g) :
    twListInv (tcp_backlog_accepted_internal g i) := by
  cases hL : (g.pcbs i).listener with
  | none =>
    simp only [tcp_backlog_accepted_internal, hL]
    exact h
  | some li =>
    by_cases hbp : (g.pcbs i).backlogpend
    · simp only [tcp_backlog_accepted_internal, hL, hbp, if_true]
      exact twListInv_setPcb _ _ _ (twListInv_keep g _ h rfl (fun _ _ => rfl)) (fun hh => hh)
    · simp only [tcp_backlog_accepted_internal, hL, hbp, if_false, Bool.false_eq_true]
      exact h

theorem twListInv_report_err (g : TcpGlobal) (i : Nat) (e : Err) (h : twListInv g) :
    twListInv (tcp_report_err g i e) := by
  by_cases hn : (g.pcbs i).nouser = false
  · simp only [tcp_report_err, hn, if_true]
    exact twListInv_setPcb _ _ _ h (fun hh => hh)
  · simp only [tcp_report_err, hn, if_false]
    exact h

theorem twInv_purge_self (g : TcpGlobal) (i : Nat) :
    twInv ((tcp_pcb_purge g i).pcbs i) := by
  unfold tcp_pcb_purge
  simp [twInv]

theorem twListInv_purge (g : TcpGlobal) (i : Nat) (h : twListInv g) :
    twListInv (tcp_pcb_purge g i) := by
  unfold tcp_pcb_purge
  exact twListInv_setPcb _ _ _ (twListInv_backlog_accepted g i h)
    (fun _ => ⟨rfl, rfl, rfl, rfl⟩)

theorem twListInv_pcb_free (g : TcpGlobal) (i : Nat) (rst : Bool) (prev : Option Nat)
    (h : twListInv g) : twListInv (tcp_pcb_free g i rst prev) := by
  have hbase : ∀ g' : TcpGlobal, g'.tw = g.tw → g'.pcbs = g.pcbs → twListInv g' := by
    intro g' htw hp
    exact twListInv_keep g g' h htw (fun j _ => by rw [hp])
  unfold tcp_pcb_free
  by_cases hin : g.input_pcb = some i <;>
    simp only [hin, if_true, if_false] <;>
  · by_cases hC : (g.pcbs i).state = CLOSED
    · by_cases hport : (g.pcbs i).local_port ≠ 0 <;>
        simp only [hC, if_true, hport, if_false] <;>
          first
            | exact hbase _ rfl rfl
            | (split <;> exact hbase _ rfl rfl)
    · by_cases hA : tcp_state_is_active (g.pcbs i).state = true
      · simp only [hC, hA, if_true, if_false]
        by_cases had : (g.pcbs i).ack_delay <;> simp only [had, if_true, if_false] <;>
          cases prev <;>
            first
              | exact twListInv_purge _ i (twListInv_setPcb _ _ _ h (fun hh => hh))
              | exact twListInv_purge _ i (hbase _ rfl rfl)
      · by_cases hT : (g.pcbs i).state = TIME_WAIT
        · simp only [hC, hA, hT, if_true, if_false, Bool.false_eq_true]
          refine twListInv_sub g _ h ?_ ?_
          · intro j hj
            exact List.mem_of_mem_erase hj
          · intro j hj
            exact h j hj
        · simp only [hC, hA, hT, if_true, if_false, Bool.false_eq_true]
          exact hbase _ rfl rfl

theorem twInv_slowtmr_persist (env : TcpEnv) (i : Nat) (p : TcpPcb)
    (h : twInv p) : twInv (tcp_slowtmr_persist env i p).1 := by
  obtain ⟨h1, h2, h3, h4⟩ := h
  simp only [tcp_slowtmr_persist]
  split_ifs <;> exact ⟨h1, h2, h3, h4⟩

theorem twInv_slowtmr_rexmit (p : TcpPcb) (h : twInv p) :
    twInv (tcp_slowtmr_rexmit p).1 := by
  obtain ⟨h1, h2, h3, h4⟩ := h
  have hneg : ¬ p.rtime ≥ 0 := by rw [h4]; decide
  simp only [tcp_slowtmr_rexmit, if_neg hneg, h1, ne_eq, not_true_eq_false, false_and,
    if_false]
  exact ⟨h1, h2, h3, h4⟩

theorem twInv_slowtmr_rtx (env : TcpEnv) (i : Nat) (p : TcpPcb)
    (h : twInv p) : twInv (tcp_slowtmr_rtx env i p).1 := by
  simp only [tcp_slowtmr_rtx]
  split_ifs
  · exact h
  · exact h
  · exact twInv_slowtmr_persist env i p h
  · exact twInv_slowtmr_rexmit p h

theorem twInv_slowtmr_keepalive (env : TcpEnv) (ticks i : Nat) (p : TcpPcb)
    (h : twInv p) : twInv (tcp_slowtmr_keepalive env ticks i p).1 := by
  obtain ⟨h1, h2, h3, h4⟩ := h
  simp only [tcp_slowtmr_keepalive]
  split_ifs <;> exact ⟨h1, h2, h3, h4⟩

theorem twInv_slowtmr_pcb_update (env : TcpEnv) (ticks i : Nat) (p : TcpPcb)
    (h : twInv p) : twInv (tcp_slowtmr_pcb_update env ticks i p).1 :=
  twInv_slowtmr_keepalive env ticks i _ (twInv_slowtmr_rtx env i p h)

theorem twListInv_slowtmr_pcb (env : TcpEnv) (g : TcpGlobal) (i : Nat)
    (h : twListInv g) : twListInv (tcp_slowtmr_pcb env g i) := by
  simp only [tcp_slowtmr_pcb]
  split
  · exact h
  · split
    · refine twListInv_pcb_free _ i _ _ (twListInv_report_err _ i _ ?_)
      exact twListInv_setPcb _ _ _ h
        (fun hh => twInv_slowtmr_pcb_update env g.ticks i _ hh)
    · exact twListInv_setPcb _ _ _ h
        (fun hh => twInv_slowtmr_pcb_update env g.ticks i _ hh)

theorem twListInv_slowtmr_active_loop (env : TcpEnv) (fuel : Nat) :
    ∀ g : TcpGlobal, twListInv g → twListInv (tcp_slowtmr_active_loop env fuel g) := by
  induction fuel with
  | zero => exact fun g h => h
  | succ n ih =>
    intro g h
    simp only [tcp_slowtmr_active_loop]
    split
    · exact fun j hj => h j hj
    · exact ih _ (twListInv_slowtmr_pcb env _ _ (fun j hj => h j hj))

theorem twListInv_slowtmr_tw_pcb (g : TcpGlobal) (i : Nat) (h : twListInv g) :
    twListInv (tcp_slowtmr_tw_pcb g i) := by
  unfold tcp_slowtmr_tw_pcb
  split
  · exact twListInv_pcb_free g i false g.iter.prev h
  · exact h

theorem twListInv_slowtmr_tw_loop (fuel : Nat) :
    ∀ g : TcpGlobal, twListInv g → twListInv (tcp_slowtmr_tw_loop fuel g) := by
  induction fuel with
  | zero => exact fun g h => h
  | succ n ih =>
    intro g h
    simp only [tcp_slowtmr_tw_loop]
    split
    · exact fun j hj => h j hj
    · exact ih _ (twListInv_slowtmr_tw_pcb _ _ (fun j hj => h j hj))

theorem twListInv_slowtmr (env : TcpEnv) (g : TcpGlobal) (h : twListInv g) :
    twListInv (tcp_slowtmr env g) := by
  simp only [tcp_slowtmr]
  exact twListInv_slowtmr_tw_loop _ _
    (twListInv_slowtmr_active_loop env _ _ (fun j hj => h j hj))

theorem twListInv_fasttmr_loop (env : TcpEnv) (ctr : Nat) (l : List Nat) :
    ∀ g : TcpGlobal, twListInv g → twListInv (tcp_fasttmr_loop env ctr l g).1 := by
  induction l with
  | nil => exact fun g h => h
  | cons i rest ih =>
    intro g h
    simp only [tcp_fasttmr_loop]
    split
    · split
      · exact ih _ (twListInv_setPcb _ _ _ h (fun hh => hh))
      · exact ih _ (twListInv_setPcb _ _ _ h (fun hh => hh))
    · exact ih _ h

theorem twListInv_fasttmr (env : TcpEnv) (g : TcpGlobal) (h : twListInv g) :
    twListInv (tcp_fasttmr env g).1 :=
  twListInv_fasttmr_loop env _ g.active _ (fun j hj => h j hj)

theorem twListInv_tmr (env : TcpEnv) (g : TcpGlobal) (h : twListInv g) :
    twListInv (tcp_tmr env g) := by
  simp only [tcp_tmr]
  split
  · exact twListInv_slowtmr env _ (fun j hj => twListInv_fasttmr env g h j hj)
  · exact fun j hj => twListInv_fasttmr env g h j hj

theorem twListInv_move_to_time_wait (g : TcpGlobal) (i : Nat) (h : twListInv g) :
    twListInv (tcp_move_to_time_wait g i) := by
  have h2 : twListInv ((tcp_pcb_purge
      { g with iter := tcp_iter_will_remove g.iter i g.active, active := tcp_rmv g.active i }
      i).setPcb i
      { (tcp_pcb_purge
          { g with iter := tcp_iter_will_remove g.iter i g.active, active := tcp_rmv g.active i }
          i).pcbs i with state := TIME_WAIT }) :=
    twListInv_setPcb _ _ _
      (twListInv_purge _ i (fun j hj => h j hj)) (fun hh => hh)
  intro j hj
  rcases List.mem_cons.mp hj with heq | hm
  · rw [heq]
    simp only [tcp_move_to_time_wait, setPcb_pcbs, eq_self_iff_true, if_true]
    exact twInv_purge_self
      { g with iter := tcp_iter_will_remove g.iter i g.active, active := tcp_rmv g.active i }
      i
  · exact h2 j hm

theorem move_backlogpend (g : TcpGlobal) (i li : Nat)
    (hli : (g.pcbs i).listener = some li) :
    ((tcp_move_to_time_wait g i).pcbs i).backlogpend = false := by
  by_cases hbp : (g.pcbs i).backlogpend = true <;>
    simp [tcp_move_to_time_wait, tcp_pcb_purge, tcp_backlog_accepted_internal, hli, hbp]

theorem twListInv_close_shutdown (env : TcpEnv) (g : TcpGlobal) (i : Nat)
    (rst : Bool) (h : twListInv g) : twListInv (tcp_close_shutdown env g i rst).2 := by
  simp only [tcp_close_shutdown]
  split
  · split
    · exact twListInv_move_to_time_wait g i h
    · exact twListInv_pcb_free _ i false none (twListInv_setPcb _ _ _ h (fun hh => hh))
  · split <;>
      first
        | exact twListInv_pcb_free g i false none h
        | exact h
        | (split <;>
            first
              | exact twListInv_setPcb _ _ _ (twListInv_backlog_accepted g i h)
                  (fun hh => hh)
              | exact twListInv_setPcb _ _ _ h (fun hh => hh)
              | exact h)

theorem twListInv_close (env : TcpEnv) (g : TcpGlobal) (i : Nat) (h : twListInv g) :
    twListInv (tcp_close env g i) := by
  simp only [tcp_close]
  split
  · exact twListInv_pcb_free _ i true none
      (twListInv_close_shutdown env _ i true (twListInv_setPcb _ _ _ h (fun hh => hh)))
  · exact twListInv_close_shutdown env _ i true (twListInv_setPcb _ _ _ h (fun hh => hh))

theorem twListInv_shut_tx (env : TcpEnv) (g : TcpGlobal) (i : Nat) (h : twListInv g) :
    twListInv (tcp_shut_tx env g i).2 := by
  simp only [tcp_shut_tx]
  split <;> first | exact twListInv_close_shutdown env g i false h | exact h

theorem twListInv_abort (g : TcpGlobal) (i : Nat) (h : twListInv g) :
    twListInv (tcp_abort g i) :=
  twListInv_pcb_free g i true none h

theorem twListInv_foldl {β : Type} (f : TcpGlobal → β → TcpGlobal)
    (hf : ∀ g b, twListInv g → twListInv (f g b)) (l : List β) :
    ∀ g, twListInv g → twListInv (l.foldl f g) := by
  induction l with
  | nil => exact fun g h => h
  | cons x t ih => exact fun g h => ih _ (hf g x h)

theorem twListInv_clear_listener (li : Nat) (g0 : TcpGlobal) (j : Nat)
    (h0 : twListInv g0) :
    twListInv (if (g0.pcbs j).listener = some li then
      g0.setPcb j { g0.pcbs j with listener := none } else g0) := by
  split
  · exact twListInv_setPcb _ _ _ h0 (fun hh => hh)
  · exact h0

theorem twListInv_close_listen (g : TcpGlobal) (li : Nat) (h : twListInv g) :
    twListInv (tcp_close_listen g li) := by
  simp only [tcp_close_listen]
  split
  · exact fun j hj =>
      twListInv_foldl _ (fun g0 k h0 => twListInv_clear_listener li g0 k h0)
        (g.active ++ g.tw) g h j hj
  · split
    · exact fun j hj => h j hj
    · exact h

theorem twListInv_kill_prio (g : TcpGlobal) (prio : Nat) (h : twListInv g) :
    twListInv (tcp_kill_prio g prio) := by
  unfold tcp_kill_prio
  split
  · exact h
  · exact twListInv_pcb_free _ _ true none (twListInv_report_err g _ ERR_ABRT h)

theorem twListInv_kill_state (g : TcpGlobal) (st : TcpState) (h : twListInv g) :
    twListInv (tcp_kill_state g st) := by
  unfold tcp_kill_state
  split
  · exact h
  · exact twListInv_pcb_free _ _ false none (twListInv_report_err g _ ERR_ABRT h)

theorem twListInv_kill_timewait (g : TcpGlobal) (h : twListInv g) :
    twListInv (tcp_kill_timewait g) := by
  unfold tcp_kill_timewait
  split
  · exact h
  · exact twListInv_pcb_free g _ false none h

theorem twListInv_bind_commit (g : TcpGlobal) (r : PcbRef) (ip : IpAddr) (port : Nat)
    (h : twListInv g) : twListInv (tcp_bind_commit g r ip port) := by
  cases r with
  | conn i =>
    by_cases ha : ip.is_any = false
    · have h2 : twListInv ((g.setPcb i { g.pcbs i with local_ip := ip }).setPcb i
          { (g.setPcb i { g.pcbs i with local_ip := ip }).pcbs i with local_port := port }) :=
        twListInv_setPcb _ _ _ (twListInv_setPcb _ _ _ h (fun hh => hh)) (fun hh => hh)
      simp only [tcp_bind_commit, ha, eq_self_iff_true, if_true]
      exact fun j hj => h2 j hj
    · have h2 : twListInv (g.setPcb i { g.pcbs i with local_port := port }) :=
        twListInv_setPcb _ _ _ h (fun hh => hh)
      simp only [tcp_bind_commit, ha, if_false]
      exact fun j hj => h2 j hj
  | lis i =>
    by_cases ha : ip.is_any = false <;>
      simp only [tcp_bind_commit, ha, eq_self_iff_true, if_true, if_false] <;>
        exact fun j hj => h j hj

theorem twListInv_bind (g : TcpGlobal) (r : PcbRef) (ip : IpAddr) (port : Nat)
    (h : twListInv g) : twListInv (tcp_bind g r ip port).2 := by
  simp only [tcp_bind]
  split
  · exact h
  · split
    · split
      · exact fun j hj => h j hj
      · exact twListInv_bind_commit _ r ip _ (fun j hj => h j hj)
    · split
      · exact h
      · exact twListInv_bind_commit g r ip port h

theorem twListInv_listen (g : TcpGlobal) (li backlog : Nat) (h : twListInv g) :
    twListInv (tcp_listen_with_backlog g li backlog).2 := by
  simp only [tcp_listen_with_backlog]
  split <;> exact fun j hj => h j hj

theorem twListInv_listen_dual (g : TcpGlobal) (li backlog : Nat) (h : twListInv g) :
    twListInv (tcp_listen_dual_with_backlog g li backlog).2 := by
  simp only [tcp_listen_dual_with_backlog]
  split
  · exact h
  · split
    · exact fun j hj => twListInv_listen g li backlog h j hj
    · exact twListInv_listen g li backlog h

theorem twListInv_update_rcv_ann_wnd (g : TcpGlobal) (i : Nat) (h : twListInv g) :
    twListInv (tcp_update_rcv_ann_wnd g i).2 := by
  simp only [tcp_update_rcv_ann_wnd]
  split
  · exact twListInv_setPcb _ _ _ h (fun hh => hh)
  · split
    · exact twListInv_setPcb _ _ _ h (fun hh => hh)
    · exact twListInv_setPcb _ _ _ h (fun hh => hh)

theorem twListInv_recved_aux (g : TcpGlobal) (i : Nat) (p2 : TcpPcb)
    (h : twListInv (g.setPcb i p2)) :
    twListInv (if (tcp_update_rcv_ann_wnd (g.setPcb i p2) i).1 ≥ TCP_WND_UPDATE_THRESHOLD
      then (tcp_update_rcv_ann_wnd (g.setPcb i p2) i).2.setPcb i
        { (tcp_update_rcv_ann_wnd (g.setPcb i p2) i).2.pcbs i with ack_now := true }
      else (tcp_update_rcv_ann_wnd (g.setPcb i p2) i).2) := by
  split
  · exact twListInv_setPcb _ _ _ (twListInv_update_rcv_ann_wnd _ i h) (fun hh => hh)
  · exact twListInv_update_rcv_ann_wnd _ i h

theorem twListInv_recved (g : TcpGlobal) (i len : Nat) (h : twListInv g) :
    twListInv (tcp_recved_internal g i len) :=
  twListInv_recved_aux g i _
    (twListInv_setPcb _ _ _ h (fun hh => by split_ifs <;> exact hh))

theorem twListInv_abort_if_match (olda : IpAddr) (g0 : TcpGlobal) (j : Nat)
    (h0 : twListInv g0) :
    twListInv (if (g0.pcbs j).local_ip.is_v6 = false ∧ ip_addr_cmp (g0.pcbs j).local_ip olda
      then tcp_pcb_free (tcp_report_err g0 j ERR_ABRT) j true none else g0) := by
  split
  · exact twListInv_pcb_free _ j true none (twListInv_report_err g0 j ERR_ABRT h0)
  · exact h0

theorem twListInv_bound_step (olda : IpAddr) (g0 : TcpGlobal) (r : PcbRef)
    (h0 : twListInv g0) :
    twListInv (match r with
      | .lis _ => g0
      | .conn j =>
        if (g0.pcbs j).local_ip.is_v6 = false ∧ ip_addr_cmp (g0.pcbs j).local_ip olda
          then tcp_pcb_free (tcp_report_err g0 j ERR_ABRT) j true none else g0) := by
  cases r with
  | lis k => exact h0
  | conn j => exact twListInv_abort_if_match olda g0 j h0

theorem twListInv_lpcb_rebind (olda newa : IpAddr) (g0 : TcpGlobal) (lj : Nat)
    (h0 : twListInv g0) :
    twListInv (if (g0.lpcbs lj).local_ip.is_v6 = false ∧
        (g0.lpcbs lj).local_ip.is_any = false ∧
        ip_addr_cmp (g0.lpcbs lj).local_ip olda then
      g0.setLpcb lj { g0.lpcbs lj with local_ip := newa } else g0) := by
  split
  · exact fun j hj => h0 j hj
  · exact h0

theorem twListInv_addr_changed (g : TcpGlobal) (olda newa : IpAddr) (h : twListInv g) :
    twListInv (tcp_netif_ipv4_addr_changed g olda newa) := by
  have h1 : twListInv (tcp_netif_addr_changed_conn olda g.active g) :=
    twListInv_foldl _ (fun g0 k h0 => twListInv_abort_if_match olda g0 k h0) g.active g h
  have h2 : twListInv (tcp_netif_addr_changed_bound olda
      (tcp_netif_addr_changed_conn olda g.active g).bound
      (tcp_netif_addr_changed_conn olda g.active g)) :=
    twListInv_foldl _ (fun g0 r h0 => twListInv_bound_step olda g0 r h0) _ _ h1
  simp only [tcp_netif_ipv4_addr_changed]
  split
  · exact twListInv_foldl _ (fun g0 k h0 => twListInv_lpcb_rebind olda newa g0 k h0) _ _ h2
  · exact h2

/-- The intermediate state of `tcp_connect` after the remote address has
been stored, when the local IP is already fixed (no route lookup). -/
def tcp_connect_g1 (g : TcpGlobal) (i : Nat) (ipaddr : IpAddr) (port : Nat) : TcpGlobal :=
  g.setPcb i { g.pcbs i with remote_ip := ipaddr, remote_port := port }

theorem tcp_connect_no_wildcard (env : TcpEnv) (g : TcpGlobal) (i : Nat)
    (ipaddr : IpAddr) (port : Nat)
    (hver : (g.pcbs i).local_ip.is_v6 = ipaddr.is_v6)
    (hany : (g.pcbs i).local_ip.is_any = false) :
    tcp_connect env g i ipaddr port =
      (if (g.pcbs i).local_port = 0 then
        (if (tcp_new_port (tcp_connect_g1 g i ipaddr port)).1 = 0 then
          (ERR_BUF, (tcp_new_port (tcp_connect_g1 g i ipaddr port)).2)
        else
          tcp_connect_rest env
            ((tcp_new_port (tcp_connect_g1 g i ipaddr port)).2.setPcb i
              { (tcp_new_port (tcp_connect_g1 g i ipaddr port)).2.pcbs i with
                local_port := (tcp_new_port (tcp_connect_g1 g i ipaddr port)).1 }) i
            (g.pcbs i).local_port)
      else tcp_connect_rest env (tcp_connect_g1 g i ipaddr port) i
        (g.pcbs i).local_port) := by
  have hv : ¬((g.pcbs i).local_ip.is_v6 ≠ ipaddr.is_v6) := by rw [hver]; simp
  simp [tcp_connect, hv, hany, tcp_connect_g1]

theorem tcp_connect_rest_tw (env : TcpEnv) (g : TcpGlobal) (i olp : Nat) :
    (tcp_connect_rest env g i olp).2.tw = g.tw := by
  by_cases he : env.enqueue_flags i = ERR_OK
  · by_cases holp : olp ≠ 0 <;> simp [tcp_connect_rest, tcp_next_iss, he, holp]
  · simp [tcp_connect_rest, tcp_next_iss, he]

theorem tcp_connect_rest_pcbs_ne (env : TcpEnv) (g : TcpGlobal) (i olp j : Nat)
    (hj : j ≠ i) : (tcp_connect_rest env g i olp).2.pcbs j = g.pcbs j := by
  by_cases he : env.enqueue_flags i = ERR_OK
  · by_cases holp : olp ≠ 0 <;> simp [tcp_connect_rest, tcp_next_iss, he, holp, hj]
  · simp [tcp_connect_rest, tcp_next_iss, he, hj]

theorem tcp_connect_frame (env : TcpEnv) (g : TcpGlobal) (i : Nat) (ip : IpAddr)
    (port : Nat) :
    (tcp_connect env g i ip port).2.tw = g.tw ∧
      ∀ j, j ≠ i → (tcp_connect env g i ip port).2.pcbs j = g.pcbs j := by
  by_cases hv : (g.pcbs i).local_ip.is_v6 ≠ ip.is_v6
  · constructor
    · simp [tcp_connect, hv]
    · intro j hj
      simp [tcp_connect, hv]
  · have hver : (g.pcbs i).local_ip.is_v6 = ip.is_v6 := not_ne_iff.mp hv
    by_cases hany : (g.pcbs i).local_ip.is_any = true
    · cases hr : env.route with
      | none =>
        rw [tcp_connect_route_none env g i ip port hver hany hr]
        exact ⟨by simp, fun j hj => by simp [hj]⟩
      | some lip =>
        rw [tcp_connect_route_some env g i ip port lip hver hany hr]
        by_cases hport : (g.pcbs i).local_port = 0
        · rw [if_pos hport]
          by_cases hz : (tcp_new_port (tcp_connect_g2 g i ip port lip)).1 = 0
          · rw [if_pos hz]
            exact ⟨by simp, fun j hj => by simp [tcp_connect_g2, hj]⟩
          · rw [if_neg hz]
            constructor
            · rw [tcp_connect_rest_tw]
              simp
            · intro j hj
              rw [tcp_connect_rest_pcbs_ne env _ i _ j hj]
              simp [tcp_connect_g2, hj]
        · rw [if_neg hport]
          constructor
          · rw [tcp_connect_rest_tw]
            simp
          · intro j hj
            rw [tcp_connect_rest_pcbs_ne env _ i _ j hj]
            simp [tcp_connect_g2, hj]
    · have hanyf : (g.pcbs i).local_ip.is_any = false := by
        rwa [Bool.not_eq_true] at hany
      rw [tcp_connect_no_wildcard env g i ip port hver hanyf]
      by_cases hport : (g.pcbs i).local_port = 0
      · rw [if_pos hport]
        by_cases hz : (tcp_new_port (tcp_connect_g1 g i ip port)).1 = 0
        · rw [if_pos hz]
          exact ⟨by simp [tcp_connect_g1], fun j hj => by simp [tcp_connect_g1, hj]⟩
        · rw [if_neg hz]
          constructor
          · rw [tcp_connect_rest_tw]
            simp [tcp_connect_g1]
          · intro j hj
            rw [tcp_connect_rest_pcbs_ne env _ i _ j hj]
            simp [tcp_connect_g1, hj]
      · rw [if_neg hport]
        constructor
        · rw [tcp_connect_rest_tw]
          simp [tcp_connect_g1]
        · intro j hj
          rw [tcp_connect_rest_pcbs_ne env _ i _ j hj]
          simp [tcp_connect_g1, hj]

instance (g : TcpGlobal) : Decidable (twListInv g) := by
  unfold twListInv
  infer_instance

/-- One mutating entry point of the module, as modelled in this file: the
relation holds between the state before and the state after a single
call. -/
inductive TcpStep (env : TcpEnv) : TcpGlobal → TcpGlobal → Prop
  | bind (g : TcpGlobal) (r : PcbRef) (ip : IpAddr) (port : Nat) :
      TcpStep env g (tcp_bind g r ip port).2
  | listen (g : TcpGlobal) (li backlog : Nat) :
      TcpStep env g (tcp_listen_with_backlog g li backlog).2
  | listen_dual (g : TcpGlobal) (li backlog : Nat) :
      TcpStep env g (tcp_listen_dual_with_backlog g li backlog).2
  | connect (g : TcpGlobal) (i : Nat) (ip : IpAddr) (port : Nat)
      (hcl : (g.pcbs i).state = CLOSED) :
      TcpStep env g (tcp_connect env g i ip port).2
  | close (g : TcpGlobal) (i : Nat) : TcpStep env g (tcp_close env g i)
  | shut_tx (g : TcpGlobal) (i : Nat) : TcpStep env g (tcp_shut_tx env g i).2
  | abort (g : TcpGlobal) (i : Nat) : TcpStep env g (tcp_abort g i)
  | close_listen (g : TcpGlobal) (li : Nat) : TcpStep env g (tcp_close_listen g li)
  | backlog_delayed (g : TcpGlobal) (i : Nat) : TcpStep env g (tcp_backlog_delayed g i)
  | backlog_accepted (g : TcpGlobal) (i : Nat) : TcpStep env g (tcp_backlog_accepted g i)
  | backlog_set (g : TcpGlobal) (li n : Nat) : TcpStep env g (tcp_backlog_set g li n)
  | setprio (g : TcpGlobal) (r : PcbRef) (prio : Nat) : TcpStep env g (tcp_setprio g r prio)
  | recved (g : TcpGlobal) (i len : Nat) : TcpStep env g (tcp_recved_internal g i len)
  | update_rcv_ann_wnd (g : TcpGlobal) (i : Nat) :
      TcpStep env g (tcp_update_rcv_ann_wnd g i).2
  | report_err (g : TcpGlobal) (i : Nat) (e : Err) : TcpStep env g (tcp_report_err g i e)
  | pcb_purge (g : TcpGlobal) (i : Nat) : TcpStep env g (tcp_pcb_purge g i)
  | pcb_free (g : TcpGlobal) (i : Nat) (rst : Bool) (prev : Option Nat) :
      TcpStep env g (tcp_pcb_free g i rst prev)
  | move_to_time_wait (g : TcpGlobal) (i : Nat) : TcpStep env g (tcp_move_to_time_wait g i)
  | kill_prio (g : TcpGlobal) (prio : Nat) : TcpStep env g (tcp_kill_prio g prio)
  | kill_state (g : TcpGlobal) (st : TcpState) : TcpStep env g (tcp_kill_state g st)
  | kill_timewait (g : TcpGlobal) : TcpStep env g (tcp_kill_timewait g)
  | new_port (g : TcpGlobal) : TcpStep env g (tcp_new_port g).2
  | fasttmr (g : TcpGlobal) : TcpStep env g (tcp_fasttmr env g).1
  | txnow (g : TcpGlobal) : TcpStep env g (tcp_txnow g).1
  | slowtmr (g : TcpGlobal) : TcpStep env g (tcp_slowtmr env g)
  | tmr (g : TcpGlobal) : TcpStep env g (tcp_tmr env g)
  | addr_changed (g : TcpGlobal) (olda newa : IpAddr) :
      TcpStep env g (tcp_netif_ipv4_addr_changed g olda newa)

/-- C9 counterexample state: connection PCB 0 is ESTABLISHED on the active
list with a pending backlog slot (`TF_BACKLOGPEND`) on listener 5, which
is open on the listen list. -/
def g9c : TcpGlobal :=
  { pcbs := fun _ =>
      { state := ESTABLISHED, listener := some 5, backlogpend := true }
    lpcbs := fun _ => { state := LISTEN, accepts_pending := 1 }
    listenl := [5]
    active := [0] }

/-- C9 counterexample: `tcp_close_listen` orphans the pending connection
(clearing `listener` but not `TF_BACKLOGPEND`), and `tcp_pcb_purge`'s
backlog release is guarded by `pcb->listener != NULL` — so when the
connection later reaches TIME-WAIT it is on the tw list with
`TF_BACKLOGPEND` still set, contradicting the claimed invariant. -/
theorem C9_time_wait_clean_counterexample :
    (g9c.pcbs 0).state = ESTABLISHED ∧ (g9c.lpcbs 5).state = LISTEN ∧
    (g9c.pcbs 0).backlogpend = true ∧
    ((tcp_close_listen g9c 5).pcbs 0).listener = none ∧
    0 ∈ (tcp_move_to_time_wait (tcp_close_listen g9c 5) 0).tw ∧
    ((tcp_move_to_time_wait (tcp_close_listen g9c 5) 0).pcbs 0).state = TIME_WAIT ∧
    ((tcp_move_to_time_wait (tcp_close_listen g9c 5) 0).pcbs 0).backlogpend = true := by
  decide

/-- **C9** (amended): every PCB on the tw list has an empty send queue
(`sndq`, `sndq_last`, `sndq_next`) and `rtime = -1`; `tcp_move_to_time_wait`
purges the PCB before setting its state to TIME_WAIT and prepending it to
tw, and the purge releases the pending backlog slot (clearing
`TF_BACKLOGPEND`) only when the PCB still references its listener — a PCB
orphaned by `tcp_close_listen` carries a stale `TF_BACKLOGPEND` into
TIME-WAIT (see the counterexample), so that conjunct of the claim is
dropped.  No modelled operation enqueues segments on or re-arms the
retransmission timer of a tw PCB: the emptiness invariant is preserved by
every mutating entry point (for `tcp_connect`, under the API precondition
that it is called on a CLOSED PCB, given that tw PCBs are in state
TIME_WAIT). -/
theorem C9_time_wait_clean :
    (∀ g i, (tcp_move_to_time_wait g i).tw = i :: g.tw ∧
        twInv ((tcp_move_to_time_wait g i).pcbs i) ∧
        ((tcp_move_to_time_wait g i).pcbs i).state = TIME_WAIT ∧
        ∀ li, (g.pcbs i).listener = some li →
          ((tcp_move_to_time_wait g i).pcbs i).backlogpend = false) ∧
    ∀ env g g2, (∀ j ∈ g.tw, (g.pcbs j).state = TIME_WAIT) →
      twListInv g → TcpStep env g g2 → twListInv g2 := by
  constructor
  · intro g i
    refine ⟨?_, ?_, ?_, fun li hli => move_backlogpend g i li hli⟩
    · simp [tcp_move_to_time_wait]
    · simp only [tcp_move_to_time_wait, setPcb_pcbs, eq_self_iff_true, if_true]
      exact twInv_purge_self
        { g with iter := tcp_iter_will_remove g.iter i g.active, active := tcp_rmv g.active i }
        i
    · simp [tcp_move_to_time_wait]
  · intro env g g2 hsane h hstep
    cases hstep with
    | bind r ip port => exact twListInv_bind g r ip port h
    | listen li backlog => exact twListInv_listen g li backlog h
    | listen_dual li backlog => exact twListInv_listen_dual g li backlog h
    | connect i ip port hcl =>
      intro j hj
      have hfr := tcp_connect_frame env g i ip port
      rw [hfr.1] at hj
      have hji : j ≠ i := by
        intro he
        rw [he] at hj
        rw [hsane i hj] at hcl
        simp at hcl
      rw [hfr.2 j hji]
      exact h j hj
    | close i => exact twListInv_close env g i h
    | shut_tx i => exact twListInv_shut_tx env g i h
    | abort i => exact twListInv_abort g i h
    | close_listen li => exact twListInv_close_listen g li h
    | backlog_delayed i => exact twListInv_backlog_delayed g i h
    | backlog_accepted i => exact twListInv_backlog_accepted g i h
    | backlog_set li n => exact fun j hj => h j hj
    | setprio r prio =>
      cases r with
      | conn i => exact twListInv_setPcb _ _ _ h (fun hh => hh)
      | lis i => exact fun j hj => h j hj
    | recved i len => exact twListInv_recved g i len h
    | update_rcv_ann_wnd i => exact twListInv_update_rcv_ann_wnd g i h
    | report_err i e => exact twListInv_report_err g i e h
    | pcb_purge i => exact twListInv_purge g i h
    | pcb_free i rst prev => exact twListInv_pcb_free g i rst prev h
    | move_to_time_wait i => exact twListInv_move_to_time_wait g i h
    | kill_prio prio => exact twListInv_kill_prio g prio h
    | kill_state st => exact twListInv_kill_state g st h
    | kill_timewait => exact twListInv_kill_timewait g h
    | new_port => exact fun j hj => h j hj
    | fasttmr => exact twListInv_fasttmr env g h
    | txnow => exact h
    | slowtmr => exact twListInv_slowtmr env g h
    | tmr => exact twListInv_tmr env g h
    | addr_changed olda newa => exact twListInv_addr_changed g olda newa h

/-- C9 witness state: one clean TIME-WAIT PCB (identifier 1) on the tw
list. -/
def g9w : TcpGlobal :=
  { pcbs := fun _ => { state := TIME_WAIT }
    lpcbs := fun _ => {}
    tw := [1] }

def env9 : TcpEnv := {}

/-- Witness for C9 at `g9w`: establishment at PCB 0, and preservation of
the invariant across a `tcp_abort` step. -/
theorem C9_time_wait_clean_witness :
    ((tcp_move_to_time_wait g9w 0).tw = 0 :: g9w.tw ∧
      twInv ((tcp_move_to_time_wait g9w 0).pcbs 0)) ∧
    (∀ j ∈ g9w.tw, (g9w.pcbs j).state = TIME_WAIT) ∧ twListInv g9w ∧
      twListInv (tcp_abort g9w 1) :=
  ⟨⟨(C9_time_wait_clean.1 g9w 0).1, (C9_time_wait_clean.1 g9w 0).2.1⟩,
    by decide, by decide,
    C9_time_wait_clean.2 env9 g9w (tcp_abort g9w 1) (by decide) (by decide)
      (TcpStep.abort g9w 1)⟩
